import Mathlib

/-!
# ogp-app: a shallow embedding of `app.go`

The development follows the single source file of the service:

* `createImage` (the renderer and the persistence step),
* the three handlers `App.OgpPage`, `App.IndexPage`, `App.CreateImage`.

Library code the file calls (`image`, `image/draw`, `x/image/font`,
`x/image/math/fixed`, `net/http`, `path`, `uuid`) is modelled after its documented
contract; the places where the model idealises are said in the doc comments. Go `int`
is the 64-bit integer of amd64 and arm64 and wraps around; `fixed.Int26_6` is an `int32`
and wraps around; a `float64` font size is taken as the exact rational it denotes; a Go
string is a Lean `String`, and ranging over it gives its characters.

What the environment decides (the minted identifier, whether the pixel buffer can be
allocated, whether the file can be created and encoded, whether the response can be
written) is an explicit input of the handlers, and so is the state they act on
(application value, files, log). A panic is an outcome of its own: `image.NewRGBA` gives
no image, and `createImage` ends in `Result.panic`.
-/

namespace OgpApp

/-! ## Go integers -/

/-- Conversion of an integer to Go `int32` (two's complement wrap-around). -/
def wrap32 (z : Int) : Int := (z + 2147483648) % 4294967296 - 2147483648

/-- Conversion of an integer to Go `int` (64 bits): two's complement wrap-around. -/
def wrap64 (z : Int) : Int :=
  (z + 9223372036854775808) % 18446744073709551616 - 9223372036854775808

/-- Go integer division `a / b`: the quotient is truncated toward zero. -/
def quo (a b : Int) : Int := Int.tdiv a b

/-- The integer part of a rational: the fraction is discarded (truncation toward zero). -/
def truncate (f : ℚ) : Int := Int.tdiv f.num f.den

/-- Go conversion `int(f)` of a `float64`, taken as the exact rational it denotes: the
fraction is discarded; a value whose integer part does not fit an `int` converts to
`math.MinInt64` (what the amd64 conversion gives; the language leaves the result of an
out-of-range conversion to the implementation). -/
def truncInt (f : ℚ) : Int :=
  if -9223372036854775808 ≤ truncate f ∧ truncate f ≤ 9223372036854775807 then truncate f
  else -9223372036854775808

/-! ## `golang.org/x/image/math/fixed` -/

namespace fixed

/-- Go `fixed.I(i) = Int26_6(i << 6)`; `Int26_6` is an `int32`. -/
def I (i : Int) : Int := wrap32 (i * 64)

end fixed

/-- Go `fixed.Point26_6`: both coordinates are `Int26_6` values. -/
structure Point26_6 where
  X : Int
  Y : Int
deriving DecidableEq, Repr

/-! ## `image` geometry -/

/-- Go `image.Point`. -/
structure Point where
  X : Int
  Y : Int
deriving DecidableEq, Repr

/-- Go `image.Rectangle`: contains the points with `Min.X <= X < Max.X`,
`Min.Y <= Y < Max.Y`. -/
structure Rectangle where
  Min : Point
  Max : Point
deriving DecidableEq, Repr

/-- Go `image.Rect`: the returned rectangle has its minimum and maximum coordinates
swapped where necessary so that it is well-formed. -/
def Rect (x0 y0 x1 y1 : Int) : Rectangle :=
  let (x0, x1) := if x0 > x1 then (x1, x0) else (x0, x1)
  let (y0, y1) := if y0 > y1 then (y1, y0) else (y0, y1)
  ⟨⟨x0, y0⟩, ⟨x1, y1⟩⟩

/-- Go `Rectangle.Dx`. -/
def Rectangle.Dx (r : Rectangle) : Int := wrap64 (r.Max.X - r.Min.X)

/-- Go `Rectangle.Dy`. -/
def Rectangle.Dy (r : Rectangle) : Int := wrap64 (r.Max.Y - r.Min.Y)

/-- Go `Rectangle.Empty`. -/
def Rectangle.Empty (r : Rectangle) : Bool :=
  decide (r.Min.X ≥ r.Max.X) || decide (r.Min.Y ≥ r.Max.Y)

/-- Go `Point.In`. -/
def Rectangle.Contains (r : Rectangle) (x y : Int) : Bool :=
  decide (r.Min.X ≤ x) && decide (x < r.Max.X) && decide (r.Min.Y ≤ y) && decide (y < r.Max.Y)

/-- Go `Rectangle.Intersect`: the largest rectangle contained by both; the zero
rectangle when they do not overlap. -/
def Rectangle.Intersect (r s : Rectangle) : Rectangle :=
  let t : Rectangle :=
    ⟨⟨max r.Min.X s.Min.X, max r.Min.Y s.Min.Y⟩, ⟨min r.Max.X s.Max.X, min r.Max.Y s.Max.Y⟩⟩
  if t.Empty then ⟨⟨0, 0⟩, ⟨0, 0⟩⟩ else t

/-- Go `Rectangle.Add`: the rectangle translated by a point. -/
def Rectangle.Add (r : Rectangle) (p : Point) : Rectangle :=
  ⟨⟨wrap64 (r.Min.X + p.X), wrap64 (r.Min.Y + p.Y)⟩,
    ⟨wrap64 (r.Max.X + p.X), wrap64 (r.Max.Y + p.Y)⟩⟩

/-! ## `image.RGBA` and `image/draw` -/

/-- Go `image.RGBA`: `Pix` holds the pixels in R, G, B, A order, one byte each; the
pixel at `(x, y)` starts at `Pix[(y-Rect.Min.Y)*Stride + (x-Rect.Min.X)*4]`. -/
structure RGBA where
  Pix : List Nat
  Stride : Int
  Rect : Rectangle
deriving DecidableEq, Repr

/-- Go `image.mul3NonNeg`: the product `x*y*z`, or `-1` when an argument is negative or a
product overflows (the 64-bit unsigned products have a non-zero high word, or the result
does not fit an `int`). -/
def mul3NonNeg (x y z : Int) : Int :=
  if x < 0 ∨ y < 0 ∨ z < 0 then -1
  else if 18446744073709551616 ≤ x * y then -1
  else if 18446744073709551616 ≤ x * y * z then -1
  else if 9223372036854775808 ≤ x * y * z then -1
  else x * y * z

/-- Go `image.NewRGBA`: a zeroed pixel buffer of `4 * Dx * Dy` bytes. `none` stands for a
panic: the guard of `pixelBufferLength` ("Rectangle has huge or negative dimensions")
when `mul3NonNeg(4, Dx, Dy)` is negative, or, with `allocErr`, the runtime refusing to
allocate the buffer. -/
def NewRGBA (allocErr : Bool) (r : Rectangle) : Option RGBA :=
  if mul3NonNeg 4 r.Dx r.Dy < 0 then none
  else if allocErr then none
  else some
    { Pix := List.replicate (mul3NonNeg 4 r.Dx r.Dy).toNat 0
      Stride := wrap64 (4 * r.Dx)
      Rect := r }

/-- Go `RGBA.Bounds`. -/
def RGBA.Bounds (p : RGBA) : Rectangle := p.Rect

/-- Go `RGBA.PixOffset`. -/
def RGBA.PixOffset (p : RGBA) (x y : Int) : Int :=
  wrap64 ((y - p.Rect.Min.Y) * p.Stride + (x - p.Rect.Min.X) * 4)

/-- An 8-bit colour, one component per channel, in R, G, B, A order. -/
structure Color where
  R : Nat
  G : Nat
  B : Nat
  A : Nat
deriving DecidableEq, Repr

/-- Channel `c` (0 = R, 1 = G, 2 = B, otherwise A) of a colour. -/
def Color.chan (k : Color) (c : Nat) : Nat :=
  if c = 0 then k.R else if c = 1 then k.G else if c = 2 then k.B else k.A

/-- Go `RGBA.RGBAAt`: the zero colour outside the bounds. -/
def RGBA.RGBAAt (p : RGBA) (x y : Int) : Color :=
  if p.Rect.Contains x y then
    let i := (p.PixOffset x y).toNat
    ⟨p.Pix.getD i 0, p.Pix.getD (i + 1) 0, p.Pix.getD (i + 2) 0, p.Pix.getD (i + 3) 0⟩
  else ⟨0, 0, 0, 0⟩

/-- The colour of `image.White` (opaque white) as stored in an RGBA raster. -/
def White : Color := ⟨255, 255, 255, 255⟩

/-- The colour of `image.Black` (opaque black) as stored in an RGBA raster. -/
def Black : Color := ⟨0, 0, 0, 255⟩

/-- Pixel-wise update of a raster: the byte at index `i` belongs to channel `i % 4`
of the pixel in column `Min.X + (i % Stride) / 4` and row `Min.Y + i / Stride`; bytes of
pixels inside `r` are replaced by `f x y channel old`, all others are kept. -/
def RGBA.update (dst : RGBA) (r : Rectangle) (f : Int → Int → Nat → Nat → Nat) : RGBA :=
  { dst with
    Pix := dst.Pix.mapIdx fun i old =>
      let x := dst.Rect.Min.X + ((i : Int) % dst.Stride) / 4
      let y := dst.Rect.Min.Y + (i : Int) / dst.Stride
      if r.Contains x y then f x y (i % 4) old else old }

/-- Go `(*image.Uniform).Bounds`: the bounds of the "infinite-sized" uniform image. -/
def uniformBounds : Rectangle :=
  ⟨⟨-1000000000, -1000000000⟩, ⟨1000000000, 1000000000⟩⟩

/-- Go `draw.Draw(dst, r, &image.Uniform{k}, image.ZP, draw.Src)`: `r` is clipped to the
destination and to the bounds of the source, which `r.Min` aligns with the source point
`(0, 0)`; every pixel of the clipped rectangle is set to the colour `k`. -/
def drawUniformSrc (dst : RGBA) (r : Rectangle) (k : Color) : RGBA :=
  dst.update ((r.Intersect dst.Bounds).Intersect (uniformBounds.Add r.Min))
    fun _ _ c _ => k.chan c

/-- Go `image.Alpha`: an 8-bit alpha mask with its bounds. -/
structure Alpha where
  Rect : Rectangle
  AlphaAt : Int → Int → Nat

/-- Go `draw.DrawMask(dst, r, image.Black, image.Point{}, mask, mp, draw.Over)`:
`r.Min` in `dst` is aligned with `(0, 0)` in the source and with `mp` in the mask, `r` is
clipped to the destination, the source and the mask (the subtractions are Go `int`
arithmetic), and opaque black is composed over the destination through the mask
(`drawGlyphOver`: with `m = 0xffff`, `ma = alpha * 0x101`, `a = (m - ma) * 0x101`, a
destination byte `d` becomes `uint8((d*a + s*ma) / m >> 8)`). -/
def drawMaskOverBlack (dst : RGBA) (r : Rectangle) (mask : Alpha) (mp : Point) : RGBA :=
  let r1 := ((r.Intersect dst.Bounds).Intersect (uniformBounds.Add r.Min)).Intersect
    (mask.Rect.Add ⟨wrap64 (r.Min.X - mp.X), wrap64 (r.Min.Y - mp.Y)⟩)
  dst.update r1 fun x y c old =>
    let ma := mask.AlphaAt (x - r.Min.X + mp.X) (y - r.Min.Y + mp.Y) % 256 * 257
    if ma = 0 then old
    else
      let a := (65535 - ma) * 257
      let s := if c = 3 then 65535 else 0
      ((old * a + s * ma) / 65535 / 256) % 256

/-! ## `golang.org/x/image/font` -/

/-- The result of Go `Face.Glyph(dot, r)`: the destination rectangle, the mask, the
mask point, the advance and whether the face has the glyph. -/
structure GlyphResult where
  dr : Rectangle
  mask : Alpha
  maskp : Point
  advance : Int
  ok : Bool

/-- Go `font.Face`: the glyph images and the horizontal metrics of a font at one size.
Advances and kerns are `Int26_6` values. -/
structure Face where
  Glyph : Point26_6 → Char → GlyphResult
  GlyphAdvance : Char → Int × Bool
  Kern : Char → Char → Int

/-- Go `*truetype.Font` as the code uses it: `truetype.NewFace(ft, &Options{Size: s})`
gives the face at size `s`. -/
structure Font where
  NewFace : ℚ → Face

/-- The loop of Go `font.MeasureString`: `prevC` is the previous rune that had a glyph
(`none` for Go `rune(-1)`), `advance` the running `Int26_6` sum. -/
def MeasureString.loop (f : Face) : List Char → Option Char → Int → Int
  | [], _, advance => advance
  | c :: cs, prevC, advance =>
    let advance := match prevC with
      | some p => wrap32 (advance + f.Kern p c)
      | none => advance
    let (a, ok) := f.GlyphAdvance c
    if !ok then MeasureString.loop f cs prevC advance
    else MeasureString.loop f cs (some c) (wrap32 (advance + a))

/-- Go `font.MeasureString` (called by `Drawer.MeasureString`): how far the dot would
advance by drawing `s`. -/
def MeasureString (f : Face) (s : String) : Int :=
  MeasureString.loop f s.data none 0

/-- The loop of Go `Drawer.DrawString` with `Src = image.Black`: each glyph the face has
is composed over the destination at the dot, and the dot advances. -/
def DrawString.loop (f : Face) : List Char → Option Char → RGBA → Point26_6 → RGBA × Point26_6
  | [], _, dst, dot => (dst, dot)
  | c :: cs, prevC, dst, dot =>
    let dot := match prevC with
      | some p => { dot with X := wrap32 (dot.X + f.Kern p c) }
      | none => dot
    let g := f.Glyph dot c
    if !g.ok then DrawString.loop f cs prevC dst dot
    else
      DrawString.loop f cs (some c) (drawMaskOverBlack dst g.dr g.mask g.maskp)
        { dot with X := wrap32 (dot.X + g.advance) }

/-- Go `Drawer.DrawString`: draws `s` at the dot and advances the dot. -/
def DrawString (f : Face) (s : String) (dst : RGBA) (dot : Point26_6) : RGBA × Point26_6 :=
  DrawString.loop f s.data none dst dot

/-! ## `createImage`: the renderer -/

/-- The horizontal origin of `createImage`:
`x := (fixed.I(width) - dr.MeasureString(text)) / 2`, in `Int26_6` arithmetic. -/
def createImage.x (width : Int) (face : Face) (text : String) : Int :=
  quo (wrap32 (fixed.I width - MeasureString face text)) 2

/-- The baseline row of `createImage`: `y := (height + int(fontsize)/2) / 2`, in Go `int`
arithmetic. -/
def createImage.y (height : Int) (fontsize : ℚ) : Int :=
  quo (wrap64 (height + quo (truncInt fontsize) 2)) 2

/-- Lines 112 to 129 of `createImage`, on the image `img` that `image.NewRGBA` returned:
the white fill, then `text` drawn in black at the computed dot. -/
def createImage.draw (img : RGBA) (width height : Int) (fontsize : ℚ) (ft : Font)
    (text : String) : RGBA :=
  let img := drawUniformSrc img img.Bounds White
  let face := ft.NewFace fontsize
  let dot : Point26_6 := ⟨createImage.x width face text, fixed.I (createImage.y height fontsize)⟩
  (DrawString face text img dot).1

/-- The raster `createImage` has built when it reaches `os.Create`; `none` when
`image.NewRGBA` panics, in which case `createImage` builds no raster. -/
def createImage.raster (allocErr : Bool) (width height : Int) (fontsize : ℚ) (ft : Font)
    (text : String) : Option RGBA :=
  match NewRGBA allocErr (Rect 0 0 width height) with
  | none => none
  | some img => some (createImage.draw img width height fontsize ft text)

/-- The vertical baseline as the specification words it: `(height + fontSize/2) / 2`,
computed exactly and then integer-truncated. -/
def specBaseline (height : Int) (fontSize : ℚ) : Int :=
  truncate (((height : ℚ) + fontSize / 2) / 2)

/-! ## Strings, maps, identifiers and paths -/

/-- Go `map[string]string` built by a composite literal: the entries in source order,
keys distinct. -/
abbrev Map := List (String × String)

/-- Go map index `m[k]`: the zero value `""` when the key is absent. -/
def Map.get (m : Map) (k : String) : String := (m.lookup k).getD ""

/-- Go `uuid.UUID`, a `[16]byte`. -/
structure UUID where
  bytes : Fin 16 → Fin 256

/-- One lower-case hexadecimal digit (Go `hex.Encode` table `0123456789abcdef`). -/
def hexDigit (n : Nat) : Char := "0123456789abcdef".data.getD n '0'

/-- Go `hex.Encode` of one byte: high nibble, then low nibble. -/
def hexByte (b : Fin 256) : List Char := [hexDigit (b.val / 16), hexDigit (b.val % 16)]

/-- Go `UUID.String`: the form `xxxxxxxx-xxxx-xxxx-xxxx-xxxxxxxxxxxx`. -/
def UUID.String (u : UUID) : String :=
  ⟨hexByte (u.bytes 0) ++ hexByte (u.bytes 1) ++ hexByte (u.bytes 2) ++ hexByte (u.bytes 3)
    ++ '-' :: hexByte (u.bytes 4) ++ hexByte (u.bytes 5)
    ++ '-' :: hexByte (u.bytes 6) ++ hexByte (u.bytes 7)
    ++ '-' :: hexByte (u.bytes 8) ++ hexByte (u.bytes 9)
    ++ '-' :: hexByte (u.bytes 10) ++ hexByte (u.bytes 11) ++ hexByte (u.bytes 12)
    ++ hexByte (u.bytes 13) ++ hexByte (u.bytes 14) ++ hexByte (u.bytes 15)⟩

namespace path

/-- The elements of a slash-separated path (empty elements included). -/
def splitSlash : List Char → List (List Char)
  | [] => [[]]
  | c :: cs =>
    if c = '/' then [] :: splitSlash cs
    else match splitSlash cs with
      | [] => [[c]]
      | x :: xs => (c :: x) :: xs

/-- One element of Go `path.Clean`, on the stack of kept elements (last one first):
empty and `.` elements are dropped; `..` removes the element before it, is dropped at
the root of a rooted path, and is kept in front of a relative one. -/
def cleanStep (rooted : Bool) (stack : List (List Char)) (e : List Char) : List (List Char) :=
  if e = [] ∨ e = ['.'] then stack
  else if e = ['.', '.'] then
    match stack with
    | [] => if rooted then [] else [e]
    | top :: rest => if top = ['.', '.'] then e :: stack else rest
  else e :: stack

/-- Go `path.Clean`: the shortest path name equivalent to `p` by lexical processing. -/
def Clean (p : String) : String :=
  if p.data = [] then "."
  else
    let rooted := decide (p.data.head? = some '/')
    let kept := ((splitSlash p.data).foldl (cleanStep rooted) []).reverse
    let body := List.intercalate ['/'] kept
    if rooted then ⟨'/' :: body⟩ else if body = [] then "." else ⟨body⟩

/-- Go `path.Join(a, b)`: the non-empty elements joined by a slash, then cleaned; the
empty string when both are empty. -/
def Join (a b : String) : String :=
  if a.data = [] then (if b.data = [] then "" else Clean b)
  else if b.data = [] then Clean a
  else Clean (a ++ "/" ++ b)

end path

/-! ## Configuration, application and process state -/

/-- Go `Config`. -/
structure Config where
  BaseURL : String
  APIServerBind : String
  APIServerPort : String
  TLS : Bool
  KoruriBoldFontPath : String
  DefaultImageWidth : Int
  DefaultImageHeight : Int
  DefaultFontSize : ℚ
  ServerCertPath : String
  ServerKeyPath : String

/-- Go `*template.Template` as the handlers use it: `Execute(w, data)` writes some output
to `w` and reports whether it returned an error. -/
structure Template where
  Execute : Map → String × Bool

/-- Go `App`. -/
structure App where
  Config : Config
  KoruriBold : Font
  OgpPagePath : String
  IndexPagePath : String
  OgpPageTmpl : Template
  IndexPageTmpl : String

/-- The files on disk: path and contents, most recently written first, paths distinct. -/
abbrev FS := List (String × String)

/-- Create or truncate the file at `p` and leave it with `content`. -/
def FS.write (fs : FS) (p content : String) : FS :=
  (p, content) :: fs.filter fun e => e.1 ≠ p

/-- The contents of the file at `p`, when it exists. -/
def FS.read (fs : FS) (p : String) : Option String := fs.lookup p

/-- The paths of the files that exist. -/
def FS.paths (fs : FS) : List String := fs.map Prod.fst

/-- Modelled from the spec: the package logger is declared outside `app.go`; the handler
"logs and returns", so the logger is a sink and what matters is which message was sent
to it: the words (`createImage`), a failed decode, a failed `createImage`, a failed
encode of the response. -/
inductive LogEntry where
  | words (text : String)
  | decodeFailed
  | createImageFailed
  | encodeFailed
deriving DecidableEq, Repr

/-- The state a request can observe or change: the application value, the files and the
log. -/
structure Server where
  app : App
  files : FS
  log : List LogEntry

/-- Go `createImageReq`, the decoded request body. -/
structure createImageReq where
  Words : String
deriving DecidableEq, Repr

/-- The library codecs the handlers call: `json.Decoder.Decode` into a `createImageReq`
(`none` when it returns an error), `json.Encoder.Encode` of a string map and
`png.Encode`. -/
structure Lib where
  jsonDecode : String → Option createImageReq
  jsonEncode : Map → String
  pngEncode : RGBA → String

/-- What the environment decides during one `CreateImage` request: the identifier
`uuid.New()` mints, whether the runtime refuses to allocate the pixel buffer, whether
`os.Create` fails, whether `png.Encode` fails (and the bytes it had written by then), and
whether the write of the JSON response reports an error. -/
structure Outcomes where
  id : UUID
  allocErr : Bool
  createErr : Bool
  encodeErr : Option String
  writeErr : Bool

/-! ## `net/http` -/

/-- Go `http.Request` as the handlers read it: the body and the route variables
`mux.Vars(r)`. -/
structure Request where
  Body : String
  Vars : Map

/-- Whether a byte may occur in a header field name (an HTTP token character). -/
def validHeaderFieldByte (c : Char) : Bool :=
  c.isAlphanum || [33, 35, 36, 37, 38, 39, 42, 43, 45, 46, 94, 95, 96, 124, 126].contains c.toNat

/-- The case mapping of Go `textproto.CanonicalMIMEHeaderKey`: the first letter and every
letter after a hyphen in upper case, the rest in lower case. -/
def canonicalCase : Bool → List Char → List Char
  | _, [] => []
  | upper, c :: cs =>
    let c := if upper then c.toUpper else c.toLower
    c :: canonicalCase (c = '-') cs

/-- Go `textproto.CanonicalMIMEHeaderKey`: a key with a byte that is not a token
character is returned unchanged. -/
def CanonicalMIMEHeaderKey (s : String) : String :=
  if s.data.all validHeaderFieldByte then ⟨canonicalCase true s.data⟩ else s

/-- Go `http.ResponseWriter` as explicit state: `header` is the map `Header()` returns,
`wroteHeader`/`status`/`sent` record the first `WriteHeader` with the headers committed by
it, and `body` holds the bytes handed to `Write`. -/
structure ResponseWriter where
  header : Map
  wroteHeader : Bool
  status : Nat
  sent : Map
  body : String
deriving DecidableEq, Repr

/-- The writer a handler receives: nothing set, nothing written. -/
def ResponseWriter.fresh : ResponseWriter := ⟨[], false, 0, [], ""⟩

/-- Go `w.WriteHeader(code)`: the first call commits the status and the headers set so far;
later calls are ignored. -/
def ResponseWriter.WriteHeader (w : ResponseWriter) (code : Nat) : ResponseWriter :=
  if w.wroteHeader then w
  else { w with wroteHeader := true, status := code, sent := w.header }

/-- Go `w.Header().Set(k, v)`: changes the header map; headers set after `WriteHeader` are
not sent. -/
def ResponseWriter.HeaderSet (w : ResponseWriter) (k v : String) : ResponseWriter :=
  let k := CanonicalMIMEHeaderKey k
  { w with header := (k, v) :: w.header.filter fun e => e.1 ≠ k }

/-- Go `w.Write(b)`: calls `WriteHeader(http.StatusOK)` first when no status was written,
then hands the bytes to the connection. -/
def ResponseWriter.Write (w : ResponseWriter) (b : String) : ResponseWriter :=
  let w := w.WriteHeader 200
  { w with body := w.body ++ b }

/-- What the server sends once the handler has returned: the committed status (200 when
the handler wrote none), the committed headers and the body. -/
def ResponseWriter.finish (w : ResponseWriter) : Nat × Map × String :=
  ((w.WriteHeader 200).status, (w.WriteHeader 200).sent, w.body)

/-! ## `createImage` and the handlers -/

/-- How a call of `createImage` ends: it returns `nil`, it returns an error, or it
panics. -/
inductive Result where
  | ok
  | err
  | panic
deriving DecidableEq, Repr

/-- Go `createImage`: logs the words, renders the raster, creates the file `out` and
encodes the raster into it as PNG. It panics when `image.NewRGBA` does (nothing but the
words logged by then); it returns an error when `os.Create` fails (no file) or when
`png.Encode` fails (the file stays, with what had been written). -/
def createImage (lib : Lib) (o : Outcomes) (s : Server) (width height : Int) (fontsize : ℚ)
    (ft : Font) (text out : String) : Server × Result :=
  let s := { s with log := s.log ++ [LogEntry.words text] }
  match createImage.raster o.allocErr width height fontsize ft text with
  | none => (s, Result.panic)
  | some img =>
    if o.createErr then (s, Result.err)
    else
      let s := { s with files := s.files.write out "" }
      match o.encodeErr with
      | some written => ({ s with files := s.files.write out written }, Result.err)
      | none => ({ s with files := s.files.write out (lib.pngEncode img) }, Result.ok)

/-- The substitution values `OgpPage` hands to the template. -/
def App.OgpPage.data (app : App) (id : String) : Map :=
  [("id", id), ("file", id ++ ".png"), ("baseURL", app.Config.BaseURL)]

/-- Go `App.OgpPage`. -/
def App.OgpPage (s : Server) (w : ResponseWriter) (r : Request) : Server × ResponseWriter :=
  let id := r.Vars.get "id"
  let data := App.OgpPage.data s.app id
  let w := w.WriteHeader 200
  let (out, err) := s.app.OgpPageTmpl.Execute data
  let w := w.Write out
  if err then (s, w) else (s, w)

/-- Go `App.IndexPage`. -/
def App.IndexPage (s : Server) (w : ResponseWriter) (_r : Request) : Server × ResponseWriter :=
  let w := w.WriteHeader 200
  let w := w.Write s.app.IndexPageTmpl
  (s, w)

/-- The JSON object `CreateImage` encodes into the response. -/
def App.CreateImage.data (app : App) (words filename id : String) : Map :=
  [("words", words), ("file", filename), ("id", id), ("baseURL", app.Config.BaseURL)]

/-- Go `App.CreateImage`. A panic of `createImage` unwinds the handler: nothing is written
on `w` (the server recovers the panic and drops the connection). -/
def App.CreateImage (lib : Lib) (o : Outcomes) (s : Server) (w : ResponseWriter) (r : Request) :
    Server × ResponseWriter :=
  match lib.jsonDecode r.Body with
  | none => ({ s with log := s.log ++ [LogEntry.decodeFailed] }, w)
  | some d =>
    let words := d.Words
    let id := o.id
    let filename := id.String ++ ".png"
    let filepath := path.Join "data" filename
    let (wi, he, fs) :=
      (s.app.Config.DefaultImageWidth, s.app.Config.DefaultImageHeight, s.app.Config.DefaultFontSize)
    match createImage lib o s wi he fs s.app.KoruriBold words filepath with
    | (s, Result.panic) => (s, w)
    | (s, Result.err) => ({ s with log := s.log ++ [LogEntry.createImageFailed] }, w)
    | (s, Result.ok) =>
      let w := w.WriteHeader 200
      let data := App.CreateImage.data s.app words filename id.String
      let w := w.HeaderSet "Content-type" "application/json"
      let w := w.Write (lib.jsonEncode data)
      if o.writeErr then ({ s with log := s.log ++ [LogEntry.encodeFailed] }, w)
      else (s, w)

/-- A run of `CreateImage` requests, each on a fresh writer: the final state and the
responses in order. -/
def serveCreateImage (lib : Lib) : Server → List (Request × Outcomes) → Server × List ResponseWriter
  | s, [] => (s, [])
  | s, (r, o) :: rest =>
    let (s1, w) := App.CreateImage lib o s ResponseWriter.fresh r
    let (s2, ws) := serveCreateImage lib s1 rest
    (s2, w :: ws)

/-! ## The storage invariant of the specification -/

/-- The identifier `u` was returned to a client: some response of the run has a status
and carries the JSON object with `id = u` and `file = u.png`. -/
def Returned (lib : Lib) (app : App) (ws : List ResponseWriter) (u : String) : Prop :=
  ∃ w ∈ ws, w.wroteHeader = true ∧
    ∃ words, w.body = lib.jsonEncode (App.CreateImage.data app words (u ++ ".png") u)

/-- The storage invariant as the specification states it, after a run of `CreateImage`
requests from the state `s`: every file is `data/u.png` for an identifier `u` that a
response of the run returned. -/
def StorageInvariant (lib : Lib) (s : Server) (reqs : List (Request × Outcomes)) : Prop :=
  ∀ p ∈ (serveCreateImage lib s reqs).1.files.paths,
    ∃ u, p = "data/" ++ u ++ ".png" ∧ Returned lib s.app (serveCreateImage lib s reqs).2 u

/-! ## Concrete instances used to evaluate the definitions -/

/-- A mask with no pixels. -/
def emptyAlpha : Alpha := ⟨⟨⟨0, 0⟩, ⟨0, 0⟩⟩, fun _ _ => 0⟩

/-- A face in which every rune has a blank glyph of advance `a` and no kerning. -/
def blankFace (a : Int) : Face :=
  { Glyph := fun _ _ => ⟨⟨⟨0, 0⟩, ⟨0, 0⟩⟩, emptyAlpha, ⟨0, 0⟩, a, true⟩
    GlyphAdvance := fun _ => (a, true)
    Kern := fun _ _ => 0 }

/-- A font whose face at every size is `blankFace a`. -/
def blankFont (a : Int) : Font := ⟨fun _ => blankFace a⟩

/-- A face in which every rune is a one-pixel opaque box just above the dot, with an
advance of one pixel and no kerning. -/
def boxFace : Face :=
  { Glyph := fun dot _ =>
      ⟨⟨⟨dot.X / 64, dot.Y / 64 - 1⟩, ⟨dot.X / 64 + 1, dot.Y / 64⟩⟩,
        ⟨⟨⟨0, 0⟩, ⟨1, 1⟩⟩, fun _ _ => 255⟩, ⟨0, 0⟩, 64, true⟩
    GlyphAdvance := fun _ => (64, true)
    Kern := fun _ _ => 0 }

/-- A font whose face at every size is `boxFace`. -/
def boxFont : Font := ⟨fun _ => boxFace⟩

/-- Toy codecs: the body is taken as the words, the JSON encoding lists the values, the
PNG encoding is a fixed marker. -/
def demoLib : Lib :=
  { jsonDecode := fun b => if b = "not json" then none else some ⟨b⟩
    jsonEncode := fun m => String.intercalate "," (m.map fun e => e.1 ++ "=" ++ e.2)
    pngEncode := fun _ => "PNG" }

/-- A 4 x 2 canvas, font size 2, base URL `https://ogp.app`. -/
def demoConfig : Config :=
  { BaseURL := "https://ogp.app", APIServerBind := "", APIServerPort := "8080", TLS := false
    KoruriBoldFontPath := "", DefaultImageWidth := 4, DefaultImageHeight := 2
    DefaultFontSize := 2, ServerCertPath := "", ServerKeyPath := "" }

/-- An application value over the box font, with toy pages. -/
def demoApp : App :=
  { Config := demoConfig, KoruriBold := boxFont, OgpPagePath := "", IndexPagePath := ""
    OgpPageTmpl := ⟨fun m => (m.get "baseURL" ++ "/" ++ m.get "file", false)⟩
    IndexPageTmpl := "<html>index</html>" }

/-- The state at startup: no files, no log. -/
def demoServer : Server := ⟨demoApp, [], []⟩

/-- The all-zero identifier. -/
def zeroUUID : UUID := ⟨fun _ => 0⟩

/-- A request whose body decodes to the words `hello`. -/
def helloRequest : Request := ⟨"hello", []⟩

/-- A request whose body does not decode. -/
def badRequest : Request := ⟨"not json", []⟩

/-- Everything succeeds. -/
def okOutcomes : Outcomes := ⟨zeroUUID, false, false, none, false⟩

/-- The file is created, then `png.Encode` fails before writing anything. -/
def encodeFailsOutcomes : Outcomes := ⟨zeroUUID, false, false, some "", false⟩

/-! ## Integer arithmetic -/

theorem quo_two (a : Int) : quo a 2 = if 0 ≤ a then a / 2 else -((-a) / 2) := by
  unfold quo
  split
  · exact Int.tdiv_eq_ediv (by assumption) (by decide)
  · have h : a = -(-a) := by omega
    rw [h, Int.neg_tdiv, Int.tdiv_eq_ediv (by omega) (by decide)]
    simp

theorem truncate_of_nonneg (f : ℚ) (hf : 0 ≤ f) : truncate f = ⌊f⌋ := by
  unfold truncate
  rw [Int.tdiv_eq_ediv (Rat.num_nonneg.mpr hf) (by exact_mod_cast Nat.zero_le _), Rat.floor_def]

theorem truncate_intCast (n : Int) : truncate (n : ℚ) = n := by
  simp [truncate]

theorem floor_half_half (h : Int) (f : ℚ) :
    ⌊((h : ℚ) + f / 2) / 2⌋ = (h + ⌊f⌋ / 2) / 2 := by
  rw [Int.floor_eq_iff]
  have h1 : ((⌊f⌋ : Int) : ℚ) ≤ f := Int.floor_le f
  have h2 : f < ((⌊f⌋ : Int) : ℚ) + 1 := Int.lt_floor_add_one f
  generalize ⌊f⌋ = n at h1 h2
  have e1 : 4 * ((h + n / 2) / 2) ≤ 2 * h + n := by omega
  have e2 : 2 * h + n + 1 ≤ 4 * ((h + n / 2) / 2) + 4 := by omega
  have e1q : (4 : ℚ) * (((h + n / 2) / 2 : Int) : ℚ) ≤ 2 * (h : ℚ) + (n : ℚ) := by
    exact_mod_cast e1
  have e2q : 2 * (h : ℚ) + (n : ℚ) + 1 ≤ (4 : ℚ) * (((h + n / 2) / 2 : Int) : ℚ) + 4 := by
    exact_mod_cast e2
  constructor
  · linarith
  · linarith

theorem wrap32_range (z : Int) : -2147483648 ≤ wrap32 z ∧ wrap32 z < 2147483648 := by
  unfold wrap32
  omega

theorem wrap32_of_range (z : Int) (h1 : -2147483648 ≤ z) (h2 : z < 2147483648) :
    wrap32 z = z := by
  unfold wrap32
  omega

theorem wrap64_of_range (z : Int) (h1 : -9223372036854775808 ≤ z)
    (h2 : z ≤ 9223372036854775807) : wrap64 z = z := by
  unfold wrap64
  omega

theorem MeasureString_loop_range (f : Face) (cs : List Char) :
    ∀ (prevC : Option Char) (adv : Int), -2147483648 ≤ adv → adv < 2147483648 →
      -2147483648 ≤ MeasureString.loop f cs prevC adv ∧
        MeasureString.loop f cs prevC adv < 2147483648 := by
  induction cs with
  | nil => intro _ adv h1 h2; exact ⟨h1, h2⟩
  | cons c cs ih =>
    intro prevC adv h1 h2
    unfold MeasureString.loop
    have hk : ∀ p : Option Char,
        -2147483648 ≤ (match p with
          | some q => wrap32 (adv + f.Kern q c)
          | none => adv) ∧
        (match p with
          | some q => wrap32 (adv + f.Kern q c)
          | none => adv) < 2147483648 := by
      intro p
      cases p with
      | none => exact ⟨h1, h2⟩
      | some q => exact wrap32_range _
    simp only []
    split
    · exact ih _ _ (hk prevC).1 (hk prevC).2
    · exact ih _ _ (wrap32_range _).1 (wrap32_range _).2

theorem MeasureString_range (f : Face) (s : String) :
    -2147483648 ≤ MeasureString f s ∧ MeasureString f s < 2147483648 :=
  MeasureString_loop_range f s.data none 0 (by decide) (by decide)

/-- C9 fails as stated: (1) at height 2 and the font size 1e30 (the `float64` nearest to
it) `int(fontsize)` is out of range and converts to `math.MinInt64`, so the code computes
`-2305843009213693951` where the exact value truncates to
`250000000000000004971156209665`; (2) at height `math.MaxInt64` and font size 4 the
addition `height + 2` wraps around, so the code computes `-4611686018427387903` where the
exact value truncates to `4611686018427387904`. -/
theorem createImage_y_claim_fails :
    ((0 : Int) < 2 ∧ (0 : ℚ) < 1000000000000000019884624838656 ∧
      createImage.y 2 1000000000000000019884624838656 = -2305843009213693951 ∧
      specBaseline 2 1000000000000000019884624838656 = 250000000000000004971156209665) ∧
    ((0 : Int) < 9223372036854775807 ∧ (0 : ℚ) < 4 ∧
      createImage.y 9223372036854775807 4 = -4611686018427387903 ∧
      specBaseline 9223372036854775807 4 = 4611686018427387904) := by
  have t1 : truncate (1000000000000000019884624838656 : ℚ) = 1000000000000000019884624838656 := by
    have := truncate_intCast 1000000000000000019884624838656
    simpa using this
  have t2 : truncate (4 : ℚ) = 4 := by
    have := truncate_intCast 4
    simpa using this
  refine ⟨⟨by decide, by norm_num, ?_, ?_⟩, ⟨by decide, by norm_num, ?_, ?_⟩⟩
  · simp only [createImage.y, truncInt, t1]
    decide
  · unfold specBaseline
    rw [truncate_of_nonneg _ (by norm_num), Int.floor_eq_iff]
    constructor <;> norm_num
  · simp only [createImage.y, truncInt, t2]
    decide
  · unfold specBaseline
    rw [truncate_of_nonneg _ (by norm_num), Int.floor_eq_iff]
    constructor <;> norm_num

/-- C9 (amended): for a positive height and a positive font size (an exact rational)
below `2^63` such that `height + int(fontsize)/2` does not exceed `math.MaxInt64`, the
baseline row `createImage` computes, `(height + int(fontsize)/2) / 2` in Go `int`
arithmetic, is the integer truncation of the exact value `(height + fontSize/2) / 2`. -/
theorem createImage_y_eq_specBaseline (height : Int) (fontsize : ℚ)
    (hh : 0 < height) (hf : 0 < fontsize) (hf2 : fontsize < 9223372036854775808)
    (hsum : height + truncate fontsize / 2 ≤ 9223372036854775807) :
    createImage.y height fontsize = specBaseline height fontsize := by
  have hfl : 0 ≤ ⌊fontsize⌋ := Int.floor_nonneg.mpr hf.le
  have hfl2 : ⌊fontsize⌋ < 9223372036854775808 := by
    rw [Int.floor_lt]
    exact_mod_cast hf2
  have hpos : (0 : ℚ) ≤ ((height : ℚ) + fontsize / 2) / 2 := by
    have : (0 : ℚ) < (height : ℚ) := by exact_mod_cast hh
    positivity
  have ht := truncate_of_nonneg fontsize hf.le
  rw [ht] at hsum
  have hti : truncInt fontsize = ⌊fontsize⌋ := by
    unfold truncInt
    rw [ht, if_pos ⟨by omega, by omega⟩]
  unfold createImage.y specBaseline
  rw [hti, truncate_of_nonneg _ hpos, floor_half_half, quo_two (⌊fontsize⌋),
    if_pos hfl, wrap64_of_range _ (by omega) hsum, quo_two, if_pos (by omega)]

/-- C6 fails as stated: (1) with a canvas one pixel wide (64 units) and a measured width
of 65 units the text is wider than the canvas, yet the origin `(64 - 65) / 2` is `0`, not
negative, because Go division truncates toward zero; (2) with a canvas of `2^25 + 1`
pixels `fixed.I(width)` overflows the 26 integer bits of `Int26_6`, so the empty text
(measured width 0, narrower than the canvas) gets a negative origin. -/
theorem createImage_x_claim_fails :
    (MeasureString (blankFace 65) "a" = 65 ∧ fixed.I 1 = 64 ∧
      ¬ (createImage.x 1 (blankFace 65) "a" < 0)) ∧
    (MeasureString (blankFace 65) "" = 0 ∧ (0 : Int) < 64 * 33554433 ∧
      ¬ (0 ≤ createImage.x 33554433 (blankFace 65) "")) := by
  decide

theorem createImage_raster_isNone (allocErr : Bool) (width height : Int) (fontsize : ℚ)
    (ft : Font) (text : String) :
    (createImage.raster allocErr width height fontsize ft text).isNone
      = (NewRGBA allocErr (Rect 0 0 width height)).isNone := by
  unfold createImage.raster
  cases NewRGBA allocErr (Rect 0 0 width height) <;> rfl

theorem createImage_result (lib : Lib) (o : Outcomes) (s : Server) (width height : Int)
    (fontsize : ℚ) (ft : Font) (text out : String) :
    (createImage lib o s width height fontsize ft text out).2
      = if (NewRGBA o.allocErr (Rect 0 0 width height)).isNone then Result.panic
        else if (o.createErr || o.encodeErr.isSome) then Result.err else Result.ok := by
  rw [← createImage_raster_isNone o.allocErr width height fontsize ft text]
  unfold createImage
  cases createImage.raster o.allocErr width height fontsize ft text with
  | none => rfl
  | some img => cases o.createErr <;> cases o.encodeErr <;> rfl

/-- C6 (amended): for `0 < width < 2^25` and a measured width `m >= 0` of the text,
`fixed.I(width)` is `64 * width`; when `m < fixed.I(width)` the origin
`x = (fixed.I(width) - m) / 2` is non-negative, the run ends inside the canvas, the
right margin exceeds the left one by 0 or 1 unit and twice the midpoint of the run,
`2x + m`, is within one unit of the canvas width; when `m > fixed.I(width)` the origin is
non-positive, and negative exactly when `m >= fixed.I(width) + 2`; how `createImage` ends
does not depend on the measured width: once `image.NewRGBA` has returned the canvas, it
returns an error exactly when creating or encoding the file fails. -/
theorem createImage_x_centered (width height : Int) (fontsize : ℚ) (ft : Font) (text : String)
    (hw : 0 < width) (hw2 : width < 33554432)
    (hm : 0 ≤ MeasureString (ft.NewFace fontsize) text) :
    fixed.I width = 64 * width ∧
    (MeasureString (ft.NewFace fontsize) text < fixed.I width →
      0 ≤ createImage.x width (ft.NewFace fontsize) text ∧
      createImage.x width (ft.NewFace fontsize) text + MeasureString (ft.NewFace fontsize) text
        ≤ fixed.I width ∧
      0 ≤ (fixed.I width - (createImage.x width (ft.NewFace fontsize) text
            + MeasureString (ft.NewFace fontsize) text))
          - createImage.x width (ft.NewFace fontsize) text ∧
      (fixed.I width - (createImage.x width (ft.NewFace fontsize) text
            + MeasureString (ft.NewFace fontsize) text))
          - createImage.x width (ft.NewFace fontsize) text ≤ 1 ∧
      |2 * createImage.x width (ft.NewFace fontsize) text
          + MeasureString (ft.NewFace fontsize) text - fixed.I width| ≤ 1) ∧
    (fixed.I width < MeasureString (ft.NewFace fontsize) text →
      createImage.x width (ft.NewFace fontsize) text ≤ 0 ∧
      (createImage.x width (ft.NewFace fontsize) text < 0 ↔
        fixed.I width + 2 ≤ MeasureString (ft.NewFace fontsize) text)) ∧
    (∀ (lib : Lib) (o : Outcomes) (s : Server) (out : String),
      (createImage lib o s width height fontsize ft text out).2
        = if (NewRGBA o.allocErr (Rect 0 0 width height)).isNone then Result.panic
          else if (o.createErr || o.encodeErr.isSome) then Result.err else Result.ok) := by
  have hr := MeasureString_range (ft.NewFace fontsize) text
  have hI : fixed.I width = 64 * width := by
    unfold fixed.I
    rw [wrap32_of_range] <;> omega
  refine ⟨hI, ?_, ?_, fun lib o s out => createImage_result lib o s _ _ _ _ _ _⟩
  · simp only [createImage.x, hI]
    generalize MeasureString (ft.NewFace fontsize) text = m at hm hr ⊢
    rw [wrap32_of_range _ (by omega) (by omega), quo_two]
    intro hlt
    rw [if_pos (by omega)]
    refine ⟨by omega, by omega, by omega, by omega, ?_⟩
    rw [abs_le]
    omega
  · simp only [createImage.x, hI]
    generalize MeasureString (ft.NewFace fontsize) text = m at hm hr ⊢
    rw [wrap32_of_range _ (by omega) (by omega), quo_two]
    intro hgt
    rw [if_neg (by omega)]
    omega

/-! ## The raster -/

theorem Rect_of_pos (w h : Int) (hw : 0 < w) (hh : 0 < h) :
    Rect 0 0 w h = ⟨⟨0, 0⟩, ⟨w, h⟩⟩ := by
  unfold Rect
  rw [if_neg (by omega), if_neg (by omega)]

theorem four_mul_le (w h : Int) (hw : 0 < w) (hh : 0 < h) : 4 * w ≤ 4 * w * h :=
  le_mul_of_one_le_right (by omega) (by omega)

theorem four_mul_le_right (w h : Int) (hw : 0 < w) (hh : 0 < h) : 4 * h ≤ 4 * w * h := by
  have := four_mul_le h w hh hw
  nlinarith

theorem NewRGBA_of_pos (w h : Int) (hw : 0 < w) (hh : 0 < h)
    (hb : 4 * w * h ≤ 9223372036854775807) :
    NewRGBA false ⟨⟨0, 0⟩, ⟨w, h⟩⟩
      = some ⟨List.replicate (4 * w * h).toNat 0, 4 * w, ⟨⟨0, 0⟩, ⟨w, h⟩⟩⟩ := by
  have h1 := four_mul_le w h hw hh
  have h2 := four_mul_le_right w h hw hh
  have hdx : Rectangle.Dx ⟨⟨0, 0⟩, ⟨w, h⟩⟩ = w := by
    simp only [Rectangle.Dx, sub_zero]
    exact wrap64_of_range _ (by omega) (by omega)
  have hdy : Rectangle.Dy ⟨⟨0, 0⟩, ⟨w, h⟩⟩ = h := by
    simp only [Rectangle.Dy, sub_zero]
    exact wrap64_of_range _ (by omega) (by omega)
  have hm : mul3NonNeg 4 w h = 4 * w * h := by
    unfold mul3NonNeg
    rw [if_neg (by omega), if_neg (by omega), if_neg (by omega), if_neg (by omega)]
  have hpos : 0 < 4 * w * h := by positivity
  unfold NewRGBA
  rw [hdx, hdy, hm, if_neg (by omega), wrap64_of_range _ (by omega) (by omega)]
  simp

theorem clip_self_of_pos (w h : Int) (hw : 0 < w) (hh : 0 < h)
    (hw2 : w ≤ 1000000000) (hh2 : h ≤ 1000000000) :
    (Rectangle.Intersect ⟨⟨0, 0⟩, ⟨w, h⟩⟩ ⟨⟨0, 0⟩, ⟨w, h⟩⟩).Intersect
      (uniformBounds.Add ⟨0, 0⟩) = ⟨⟨0, 0⟩, ⟨w, h⟩⟩ := by
  have he : Rectangle.Empty ⟨⟨0, 0⟩, ⟨w, h⟩⟩ = false := by
    simp [Rectangle.Empty, hw, hh]
  have hu : uniformBounds.Add ⟨0, 0⟩ = uniformBounds := by decide
  have h1 : Rectangle.Intersect ⟨⟨0, 0⟩, ⟨w, h⟩⟩ ⟨⟨0, 0⟩, ⟨w, h⟩⟩ = ⟨⟨0, 0⟩, ⟨w, h⟩⟩ := by
    simp [Rectangle.Intersect, he]
  rw [h1, hu]
  have hmx : max (0 : Int) (-1000000000) = 0 := by decide
  have hwx : min w 1000000000 = w := min_eq_left hw2
  have hhx : min h 1000000000 = h := min_eq_left hh2
  simp [Rectangle.Intersect, uniformBounds, hmx, hwx, hhx, he]

theorem DrawString_loop_frame (f : Face) (cs : List Char) :
    ∀ (prevC : Option Char) (dst : RGBA) (dot : Point26_6),
      (DrawString.loop f cs prevC dst dot).1.Rect = dst.Rect ∧
      (DrawString.loop f cs prevC dst dot).1.Stride = dst.Stride ∧
      (DrawString.loop f cs prevC dst dot).1.Pix.length = dst.Pix.length := by
  induction cs with
  | nil => intro _ dst _; exact ⟨rfl, rfl, rfl⟩
  | cons c cs ih =>
    intro prevC dst dot
    unfold DrawString.loop
    simp only []
    split
    · exact ih _ _ _
    · refine ⟨(ih _ _ _).1.trans rfl, (ih _ _ _).2.1.trans rfl, (ih _ _ _).2.2.trans ?_⟩
      simp [drawMaskOverBlack, RGBA.update]

theorem FS_write_write (fs : FS) (p a b : String) :
    (fs.write p a).write p b = fs.write p b := by
  simp [FS.write, List.filter_filter]

theorem createImage_draw_frame (img : RGBA) (width height : Int) (fontsize : ℚ) (ft : Font)
    (text : String) :
    (createImage.draw img width height fontsize ft text).Rect = img.Rect ∧
    (createImage.draw img width height fontsize ft text).Stride = img.Stride ∧
    (createImage.draw img width height fontsize ft text).Pix.length = img.Pix.length := by
  unfold createImage.draw DrawString
  refine ⟨(DrawString_loop_frame _ _ _ _ _).1.trans rfl,
    (DrawString_loop_frame _ _ _ _ _).2.1.trans rfl,
    (DrawString_loop_frame _ _ _ _ _).2.2.trans ?_⟩
  simp [drawUniformSrc, RGBA.update]

theorem createImage_raster_of_pos (width height : Int) (fontsize : ℚ) (ft : Font)
    (text : String) (hw : 0 < width) (hh : 0 < height)
    (hb : 4 * width * height ≤ 9223372036854775807) :
    createImage.raster false width height fontsize ft text
      = some (createImage.draw
          ⟨List.replicate (4 * width * height).toNat 0, 4 * width, ⟨⟨0, 0⟩, ⟨width, height⟩⟩⟩
          width height fontsize ft text) := by
  unfold createImage.raster
  rw [Rect_of_pos width height hw hh, NewRGBA_of_pos width height hw hh hb]

theorem createImage_file (lib : Lib) (o : Outcomes) (s : Server) (width height : Int)
    (fontsize : ℚ) (ft : Font) (text out : String) (img : RGBA)
    (hr : createImage.raster o.allocErr width height fontsize ft text = some img)
    (hc : o.createErr = false) (he : o.encodeErr = none) :
    createImage lib o s width height fontsize ft text out =
      ({ s with
          log := s.log ++ [LogEntry.words text]
          files := s.files.write out (lib.pngEncode img) }, Result.ok) := by
  unfold createImage
  simp [hr, hc, he, FS_write_write]

theorem createImage_ok (lib : Lib) (o : Outcomes) (s : Server) (width height : Int)
    (fontsize : ℚ) (ft : Font) (text out : String)
    (h : (createImage lib o s width height fontsize ft text out).2 = Result.ok) :
    (∃ img, createImage.raster o.allocErr width height fontsize ft text = some img) ∧
    o.createErr = false ∧ o.encodeErr = none := by
  unfold createImage at h
  cases hr : createImage.raster o.allocErr width height fontsize ft text with
  | none => simp [hr] at h
  | some img =>
    refine ⟨⟨img, rfl⟩, ?_⟩
    cases hc : o.createErr
    · cases he : o.encodeErr
      · exact ⟨rfl, rfl⟩
      · simp [hr, hc, he] at h
    · simp [hr, hc] at h

theorem NewRGBA_allocErr (r : Rectangle) : NewRGBA true r = none := by
  unfold NewRGBA
  split <;> rfl

/-- C1 fails as stated: at width and height `2^31` (both positive) the pixel buffer would
have `2^64` bytes, `image.NewRGBA` panics ("Rectangle has huge or negative dimensions"),
and `createImage` builds no raster and panics itself, also when nothing fails in the
environment. -/
theorem createImage_raster_claim_fails :
    (0 : Int) < 2147483648 ∧ (0 : ℚ) < 2 ∧
    NewRGBA false (Rect 0 0 2147483648 2147483648) = none ∧
    createImage.raster false 2147483648 2147483648 2 boxFont "hi" = none ∧
    (createImage demoLib okOutcomes demoServer 2147483648 2147483648 2 boxFont "hi"
      "data/out.png").2 = Result.panic := by
  have hn : NewRGBA false (Rect 0 0 2147483648 2147483648) = none := by decide
  refine ⟨by decide, by norm_num, hn, ?_, ?_⟩
  · unfold createImage.raster
    rw [hn]
  · rw [createImage_result]
    have ha : okOutcomes.allocErr = false := rfl
    rw [ha, hn]
    rfl

/-- C1 (amended): for positive width and height with `4 * width * height` at most
`math.MaxInt64` (the guard of `image.NewRGBA`), and any font size, font and text, when
the runtime allocates the pixel buffer `createImage` builds a raster with bounds
`(0,0)-(width,height)`: `width` columns, `height` rows, `4 * width * height` bytes of
pixels; and it is this raster whose PNG encoding the file holds when `createImage`
returns without error. -/
theorem createImage_raster_bounds (width height : Int) (fontsize : ℚ) (ft : Font)
    (text : String) (hw : 0 < width) (hh : 0 < height) (_hf : 0 < fontsize)
    (hb : 4 * width * height ≤ 9223372036854775807) :
    ∃ img, createImage.raster false width height fontsize ft text = some img ∧
      img.Bounds = ⟨⟨0, 0⟩, ⟨width, height⟩⟩ ∧
      img.Bounds.Dx = width ∧
      img.Bounds.Dy = height ∧
      img.Stride = 4 * width ∧
      img.Pix.length = (4 * width * height).toNat ∧
      (∀ (lib : Lib) (o : Outcomes) (s : Server) (out : String),
        (createImage lib o s width height fontsize ft text out).2 = Result.ok →
        (createImage lib o s width height fontsize ft text out).1.files.read out
          = some (lib.pngEncode img)) := by
  have hras := createImage_raster_of_pos width height fontsize ft text hw hh hb
  obtain ⟨h1, h2, h3⟩ := createImage_draw_frame
    ⟨List.replicate (4 * width * height).toNat 0, 4 * width, ⟨⟨0, 0⟩, ⟨width, height⟩⟩⟩
    width height fontsize ft text
  have hw4 := four_mul_le width height hw hh
  have hh4 := four_mul_le_right width height hw hh
  refine ⟨_, hras, h1, ?_, ?_, h2, ?_, ?_⟩
  · simp only [RGBA.Bounds, h1, Rectangle.Dx, sub_zero]
    exact wrap64_of_range _ (by omega) (by omega)
  · simp only [RGBA.Bounds, h1, Rectangle.Dy, sub_zero]
    exact wrap64_of_range _ (by omega) (by omega)
  · simpa using h3
  · intro lib o s out hok
    obtain ⟨⟨img, hr⟩, hc, he⟩ := createImage_ok lib o s width height fontsize ft text out hok
    have ha : o.allocErr = false := by
      cases ha : o.allocErr
      · rfl
      · rw [ha] at hr
        unfold createImage.raster at hr
        rw [NewRGBA_allocErr] at hr
        simp at hr
    rw [ha] at hr
    rw [hras] at hr
    rw [createImage_file lib o s width height fontsize ft text out img (by rw [ha, hras, hr])
      hc he]
    simp only [Option.some.injEq] at hr
    simp [FS.read, FS.write, List.lookup, hr]

theorem White_chan (c : Nat) : White.chan c = 255 := by
  unfold Color.chan White
  split
  · rfl
  · split
    · rfl
    · split <;> rfl

theorem update_getD (dst : RGBA) (r : Rectangle) (f : Int → Int → Nat → Nat → Nat) (i : Nat)
    (hi : i < dst.Pix.length) :
    (dst.update r f).Pix.getD i 0
      = if r.Contains (dst.Rect.Min.X + ((i : Int) % dst.Stride) / 4)
            (dst.Rect.Min.Y + (i : Int) / dst.Stride)
        then f (dst.Rect.Min.X + ((i : Int) % dst.Stride) / 4)
            (dst.Rect.Min.Y + (i : Int) / dst.Stride) (i % 4) (dst.Pix.getD i 0)
        else dst.Pix.getD i 0 := by
  simp [RGBA.update, List.getD_eq_getElem?_getD, List.getElem?_mapIdx, hi,
    List.getElem?_eq_getElem]

theorem fill_white_pix (w h : Int) (hw : 0 < w) (hh : 0 < h)
    (hw2 : w ≤ 1000000000) (hh2 : h ≤ 1000000000) :
    (drawUniformSrc ⟨List.replicate (4 * w * h).toNat 0, 4 * w, ⟨⟨0, 0⟩, ⟨w, h⟩⟩⟩
      ⟨⟨0, 0⟩, ⟨w, h⟩⟩ White).Pix
      = List.replicate (4 * w * h).toNat 255 := by
  have hI := clip_self_of_pos w h hw hh hw2 hh2
  simp only [drawUniformSrc, RGBA.update, RGBA.Bounds, hI, White_chan]
  apply List.ext_getElem
  · simp
  · intro i h1 h2
    simp only [List.getElem_mapIdx, List.getElem_replicate]
    have hi : i < (4 * w * h).toNat := by simpa using h2
    have hi2 : (i : Int) < h * (4 * w) := by
      have : (i : Int) < ((4 * w * h).toNat : Int) := by exact_mod_cast hi
      rw [Int.toNat_of_nonneg (by positivity)] at this
      linarith
    have hy0 : 0 ≤ (i : Int) / (4 * w) := Int.ediv_nonneg (by omega) (by omega)
    have hy1 : (i : Int) / (4 * w) < h := Int.ediv_lt_of_lt_mul (by omega) hi2
    have hm0 : 0 ≤ (i : Int) % (4 * w) := Int.emod_nonneg _ (by omega)
    have hm1 : (i : Int) % (4 * w) < 4 * w := Int.emod_lt_of_pos _ (by omega)
    have hx0 : 0 ≤ (i : Int) % (4 * w) / 4 := by omega
    have hx1 : (i : Int) % (4 * w) / 4 < w := by omega
    simp [Rectangle.Contains, hy0, hy1, hx0, hx1]

theorem replicate_white_at (w h : Int) (img : RGBA)
    (hr : img.Rect = ⟨⟨0, 0⟩, ⟨w, h⟩⟩) (hs : img.Stride = 4 * w)
    (hp : img.Pix = List.replicate (4 * w * h).toNat 255)
    (hb : 4 * w * h ≤ 9223372036854775807)
    (x y : Int) (hx0 : 0 ≤ x) (hx1 : x < w) (hy0 : 0 ≤ y) (hy1 : y < h) :
    img.RGBAAt x y = White := by
  have hc : img.Rect.Contains x y = true := by
    simp [Rectangle.Contains, hr, hx0, hx1, hy0, hy1]
  have hyw : y * (4 * w) ≤ (h - 1) * (4 * w) :=
    mul_le_mul_of_nonneg_right (by omega) (by omega)
  have hnn : 0 ≤ y * (4 * w) := mul_nonneg hy0 (by omega)
  have hlt : y * (4 * w) + x * 4 + 3 < 4 * w * h := by nlinarith
  have hoff : img.PixOffset x y = y * (4 * w) + x * 4 := by
    simp only [RGBA.PixOffset, hr, hs, sub_zero]
    exact wrap64_of_range _ (by omega) (by omega)
  have hb : ∀ k : Nat, k ≤ 3 →
      (List.replicate (4 * w * h).toNat 255).getD ((y * (4 * w) + x * 4).toNat + k) 0 = 255 := by
    intro k hk
    have : (y * (4 * w) + x * 4).toNat + k < (4 * w * h).toNat := by omega
    simp [List.getD_eq_getElem?_getD, List.getElem?_replicate, this]
  have hb0 := hb 0 (by omega)
  have hb1 := hb 1 (by omega)
  have hb2 := hb 2 (by omega)
  have hb3 := hb 3 (by omega)
  simp only [Nat.add_zero] at hb0
  simp only [RGBA.RGBAAt, hc, hoff, hp, hb0, hb1, hb2, hb3, White, if_true]

theorem createImage_draw_empty (img : RGBA) (width height : Int) (fontsize : ℚ) (ft : Font) :
    createImage.draw img width height fontsize ft "" = drawUniformSrc img img.Bounds White :=
  rfl

/-- C2 fails as stated: (1) at width and height `2^31` `image.NewRGBA` panics and
`createImage` builds no raster for the empty string; (2) on a canvas of `1000000001 x 1`
pixels the fill is clipped to the bounds of `image.White`, which end at column `10^9`, so
the last pixel of the row keeps the zero value (transparent black) of the fresh buffer. -/
theorem createImage_raster_empty_claim_fails :
    createImage.raster false 2147483648 2147483648 2 boxFont "" = none ∧
    ((0 : Int) < 1000000001 ∧ (0 : Int) < 1 ∧ (0 : ℚ) < 2 ∧
      ∃ img, createImage.raster false 1000000001 1 2 boxFont "" = some img ∧
        img.Bounds = ⟨⟨0, 0⟩, ⟨1000000001, 1⟩⟩ ∧
        img.RGBAAt 1000000000 0 = ⟨0, 0, 0, 0⟩ ∧
        img.RGBAAt 1000000000 0 ≠ White) := by
  constructor
  · have hn : NewRGBA false (Rect 0 0 2147483648 2147483648) = none := by decide
    unfold createImage.raster
    rw [hn]
  · have hras := createImage_raster_of_pos 1000000001 1 2 boxFont "" (by decide) (by decide)
      (by decide)
    rw [createImage_draw_empty] at hras
    refine ⟨by decide, by decide, by norm_num, _, hras, rfl, ?_⟩
    have hclip : (Rectangle.Intersect ⟨⟨0, 0⟩, ⟨1000000001, 1⟩⟩ ⟨⟨0, 0⟩, ⟨1000000001, 1⟩⟩).Intersect
        (uniformBounds.Add ⟨0, 0⟩) = ⟨⟨0, 0⟩, ⟨1000000000, 1⟩⟩ := by decide
    have hlen : ∀ n : Nat, (List.replicate n (0 : Nat)).length = n := fun n => by simp
    have hget : ∀ (n i : Nat), (List.replicate n (0 : Nat)).getD i 0 = 0 := by
      intro n i
      simp only [List.getD_eq_getElem?_getD, List.getElem?_replicate]
      split <;> rfl
    have hk : ∀ k : Nat, k < 4 →
        (drawUniformSrc
          ⟨List.replicate ((4 : Int) * 1000000001 * 1).toNat 0, 4 * 1000000001,
            ⟨⟨0, 0⟩, ⟨1000000001, 1⟩⟩⟩
          (RGBA.Bounds ⟨List.replicate ((4 : Int) * 1000000001 * 1).toNat 0, 4 * 1000000001,
            ⟨⟨0, 0⟩, ⟨1000000001, 1⟩⟩⟩) White).Pix.getD (4000000000 + k) 0 = 0 := by
      intro k hk
      unfold drawUniformSrc
      rw [update_getD _ _ _ _ (by rw [hlen]; omega)]
      simp only [RGBA.Bounds, hclip, hget]
      have hx : ((0 : Int) + ((4000000000 + k : Nat) : Int) % (4 * 1000000001) / 4) = 1000000000 := by
        omega
      rw [hx]
      simp [Rectangle.Contains]
    have h0 := hk 0 (by omega)
    have h1 := hk 1 (by omega)
    have h2 := hk 2 (by omega)
    have h3 := hk 3 (by omega)
    simp only [Nat.add_zero] at h0
    have hoff : (RGBA.PixOffset (drawUniformSrc
          ⟨List.replicate ((4 : Int) * 1000000001 * 1).toNat 0, 4 * 1000000001,
            ⟨⟨0, 0⟩, ⟨1000000001, 1⟩⟩⟩
          (RGBA.Bounds ⟨List.replicate ((4 : Int) * 1000000001 * 1).toNat 0, 4 * 1000000001,
            ⟨⟨0, 0⟩, ⟨1000000001, 1⟩⟩⟩) White) 1000000000 0).toNat = 4000000000 := by
      decide
    have hc : Rectangle.Contains ⟨⟨0, 0⟩, ⟨1000000001, 1⟩⟩ 1000000000 0 = true := by decide
    have hval : RGBA.RGBAAt (drawUniformSrc
          ⟨List.replicate ((4 : Int) * 1000000001 * 1).toNat 0, 4 * 1000000001,
            ⟨⟨0, 0⟩, ⟨1000000001, 1⟩⟩⟩
          (RGBA.Bounds ⟨List.replicate ((4 : Int) * 1000000001 * 1).toNat 0, 4 * 1000000001,
            ⟨⟨0, 0⟩, ⟨1000000001, 1⟩⟩⟩) White) 1000000000 0 = ⟨0, 0, 0, 0⟩ := by
      simp only [RGBA.RGBAAt, hoff, h0, h1, h2, h3]
      exact if_pos hc
    refine ⟨hval, ?_⟩
    rw [hval]
    decide

/-- C2 (amended): for positive width and height of at most `10^9` pixels each (so that the
canvas lies inside the bounds of `image.White` and passes the guard of `image.NewRGBA`)
and a positive font size, when the runtime allocates the pixel buffer `createImage` called
with the empty string measures a width of 0, draws nothing (the raster is the one the
background fill alone gives), and every pixel of the raster is opaque white. -/
theorem createImage_raster_empty (width height : Int) (fontsize : ℚ) (ft : Font)
    (hw : 0 < width) (hh : 0 < height) (_hf : 0 < fontsize)
    (hw2 : width ≤ 1000000000) (hh2 : height ≤ 1000000000) :
    MeasureString (ft.NewFace fontsize) "" = 0 ∧
    ∃ img0 img, NewRGBA false (Rect 0 0 width height) = some img0 ∧
      createImage.raster false width height fontsize ft "" = some img ∧
      img = drawUniformSrc img0 img0.Bounds White ∧
      img.Pix = List.replicate (4 * width * height).toNat 255 ∧
      (∀ x y : Int, 0 ≤ x → x < width → 0 ≤ y → y < height → img.RGBAAt x y = White) := by
  have hwh : width * height ≤ 1000000000 * 1000000000 :=
    mul_le_mul hw2 hh2 hh.le (by decide)
  have hb : 4 * width * height ≤ 9223372036854775807 := by nlinarith
  have hnew := NewRGBA_of_pos width height hw hh hb
  have hras := createImage_raster_of_pos width height fontsize ft "" hw hh hb
  rw [createImage_draw_empty] at hras
  have hpix := fill_white_pix width height hw hh hw2 hh2
  refine ⟨rfl, _, _, by rw [Rect_of_pos width height hw hh, hnew], hras, rfl, hpix, ?_⟩
  intro x y hx0 hx1 hy0 hy1
  exact replicate_white_at width height _ rfl rfl hpix hb x y hx0 hx1 hy0 hy1

/-! ## Identifiers and paths -/

theorem splitSlash_of_not_mem (l : List Char) (h : '/' ∉ l) : path.splitSlash l = [l] := by
  induction l with
  | nil => rfl
  | cons c cs ih =>
    have hc : c ≠ '/' := fun e => h (by simp [e])
    have hcs : '/' ∉ cs := fun e => h (List.mem_cons_of_mem _ e)
    simp [path.splitSlash, hc, ih hcs]

theorem splitSlash_append (a b : List Char) (h : '/' ∉ a) :
    path.splitSlash (a ++ '/' :: b) = a :: path.splitSlash b := by
  induction a with
  | nil => simp [path.splitSlash]
  | cons c cs ih =>
    have hc : c ≠ '/' := fun e => h (by simp [e])
    have hcs : '/' ∉ cs := fun e => h (List.mem_cons_of_mem _ e)
    simp [path.splitSlash, hc, ih hcs]

theorem Join_data (f : String) (hs : '/' ∉ f.data) (h3 : 3 ≤ f.data.length) :
    path.Join "data" f = "data/" ++ f := by
  have h0 : f.data ≠ [] := by
    intro e; rw [e] at h3; simp at h3
  have h1 : f.data ≠ ['.'] := by
    intro e; rw [e] at h3; simp at h3
  have h2 : f.data ≠ ['.', '.'] := by
    intro e; rw [e] at h3; simp at h3
  have hsplit : path.splitSlash ('d' :: 'a' :: 't' :: 'a' :: '/' :: f.data)
      = ['d', 'a', 't', 'a'] :: [f.data] := by
    have := splitSlash_append ['d', 'a', 't', 'a'] f.data (by decide)
    rw [splitSlash_of_not_mem f.data hs] at this
    simpa using this
  have hd : ("data" ++ "/" ++ f).data = 'd' :: 'a' :: 't' :: 'a' :: '/' :: f.data := by
    simp [String.data_append]
  apply String.ext
  have hj : path.Join "data" f = path.Clean ("data" ++ "/" ++ f) := by
    unfold path.Join
    rw [if_neg (by decide), if_neg h0]
  rw [hj]
  unfold path.Clean
  rw [hd, hsplit]
  simp [path.cleanStep, h0, h1, h2, List.intercalate, String.data_append]

theorem hexDigit_ne_slash (n : Nat) : hexDigit n ≠ '/' := by
  unfold hexDigit
  by_cases h : n < 16
  · interval_cases n <;> decide
  · have : "0123456789abcdef".data.length ≤ n := by simpa using Nat.le_of_not_lt h
    rw [List.getD_eq_default _ _ this]
    decide

theorem UUID_String_length (u : UUID) : u.String.data.length = 36 := by
  simp [UUID.String, hexByte]

theorem UUID_String_no_slash (u : UUID) : '/' ∉ u.String.data := by
  have h := fun n => (hexDigit_ne_slash n).symm
  simp [UUID.String, hexByte, h]

theorem Join_data_uuid (u : UUID) :
    path.Join "data" (u.String ++ ".png") = "data/" ++ u.String ++ ".png" := by
  rw [Join_data, String.append_assoc]
  · have h := UUID_String_no_slash u
    simp [String.data_append, h]
  · simp [String.data_append, UUID_String_length]

/-! ## The handlers -/

theorem fresh_WriteHeader (code : Nat) :
    ResponseWriter.fresh.WriteHeader code = ⟨[], true, code, [], ""⟩ := rfl

theorem CreateImage_decode_none (lib : Lib) (o : Outcomes) (s : Server) (w : ResponseWriter)
    (r : Request) (hd : lib.jsonDecode r.Body = none) :
    App.CreateImage lib o s w r = ({ s with log := s.log ++ [LogEntry.decodeFailed] }, w) := by
  unfold App.CreateImage
  rw [hd]

theorem CreateImage_panic (lib : Lib) (o : Outcomes) (s : Server) (w : ResponseWriter)
    (r : Request) (d : createImageReq) (hd : lib.jsonDecode r.Body = some d)
    (hres : (createImage lib o s s.app.Config.DefaultImageWidth
      s.app.Config.DefaultImageHeight s.app.Config.DefaultFontSize s.app.KoruriBold d.Words
      (path.Join "data" (o.id.String ++ ".png"))).2 = Result.panic) :
    App.CreateImage lib o s w r =
      ((createImage lib o s s.app.Config.DefaultImageWidth
        s.app.Config.DefaultImageHeight s.app.Config.DefaultFontSize s.app.KoruriBold d.Words
        (path.Join "data" (o.id.String ++ ".png"))).1, w) := by
  unfold App.CreateImage
  rw [hd]
  simp only []
  rcases hc : createImage lib o s s.app.Config.DefaultImageWidth
      s.app.Config.DefaultImageHeight s.app.Config.DefaultFontSize s.app.KoruriBold d.Words
      (path.Join "data" (o.id.String ++ ".png")) with ⟨s1, res⟩
  rw [hc] at hres
  simp only at hres
  subst hres
  rfl

theorem CreateImage_err (lib : Lib) (o : Outcomes) (s : Server) (w : ResponseWriter)
    (r : Request) (d : createImageReq) (hd : lib.jsonDecode r.Body = some d)
    (hres : (createImage lib o s s.app.Config.DefaultImageWidth
      s.app.Config.DefaultImageHeight s.app.Config.DefaultFontSize s.app.KoruriBold d.Words
      (path.Join "data" (o.id.String ++ ".png"))).2 = Result.err) :
    App.CreateImage lib o s w r =
      ({ (createImage lib o s s.app.Config.DefaultImageWidth
          s.app.Config.DefaultImageHeight s.app.Config.DefaultFontSize s.app.KoruriBold
          d.Words (path.Join "data" (o.id.String ++ ".png"))).1 with
          log := (createImage lib o s s.app.Config.DefaultImageWidth
            s.app.Config.DefaultImageHeight s.app.Config.DefaultFontSize s.app.KoruriBold
            d.Words (path.Join "data" (o.id.String ++ ".png"))).1.log
            ++ [LogEntry.createImageFailed] }, w) := by
  unfold App.CreateImage
  rw [hd]
  simp only []
  rcases hc : createImage lib o s s.app.Config.DefaultImageWidth
      s.app.Config.DefaultImageHeight s.app.Config.DefaultFontSize s.app.KoruriBold d.Words
      (path.Join "data" (o.id.String ++ ".png")) with ⟨s1, res⟩
  rw [hc] at hres
  simp only at hres
  subst hres
  rfl

theorem CreateImage_ok (lib : Lib) (o : Outcomes) (s : Server) (w : ResponseWriter)
    (r : Request) (d : createImageReq) (hd : lib.jsonDecode r.Body = some d)
    (hres : (createImage lib o s s.app.Config.DefaultImageWidth
      s.app.Config.DefaultImageHeight s.app.Config.DefaultFontSize s.app.KoruriBold d.Words
      (path.Join "data" (o.id.String ++ ".png"))).2 = Result.ok) :
    App.CreateImage lib o s w r =
      (let s1 := (createImage lib o s s.app.Config.DefaultImageWidth
          s.app.Config.DefaultImageHeight s.app.Config.DefaultFontSize s.app.KoruriBold
          d.Words (path.Join "data" (o.id.String ++ ".png"))).1
       let w1 := ((w.WriteHeader 200).HeaderSet "Content-type" "application/json").Write
         (lib.jsonEncode
           (App.CreateImage.data s1.app d.Words (o.id.String ++ ".png") o.id.String))
       if o.writeErr then ({ s1 with log := s1.log ++ [LogEntry.encodeFailed] }, w1)
       else (s1, w1)) := by
  unfold App.CreateImage
  rw [hd]
  simp only []
  rcases hc : createImage lib o s s.app.Config.DefaultImageWidth
      s.app.Config.DefaultImageHeight s.app.Config.DefaultFontSize s.app.KoruriBold d.Words
      (path.Join "data" (o.id.String ++ ".png")) with ⟨s1, res⟩
  rw [hc] at hres
  simp only at hres
  subst hres
  rfl

theorem createImage_app (lib : Lib) (o : Outcomes) (s : Server) (width height : Int)
    (fontsize : ℚ) (ft : Font) (text out : String) :
    (createImage lib o s width height fontsize ft text out).1.app = s.app := by
  unfold createImage
  cases createImage.raster o.allocErr width height fontsize ft text with
  | none => rfl
  | some img => cases o.createErr <;> cases o.encodeErr <;> rfl

theorem json_response_writer (b : String) :
    ((ResponseWriter.fresh.WriteHeader 200).HeaderSet "Content-type" "application/json").Write b
      = ⟨[("Content-Type", "application/json")], true, 200, [], b⟩ := by
  have hk : CanonicalMIMEHeaderKey "Content-type" = "Content-Type" := by decide
  simp [ResponseWriter.Write, ResponseWriter.HeaderSet, ResponseWriter.WriteHeader,
    ResponseWriter.fresh, hk]

theorem CreateImage_panic_writer (lib : Lib) (o : Outcomes) (s : Server) (r : Request)
    (d : createImageReq) (hd : lib.jsonDecode r.Body = some d)
    (hres : (createImage lib o s s.app.Config.DefaultImageWidth
      s.app.Config.DefaultImageHeight s.app.Config.DefaultFontSize s.app.KoruriBold d.Words
      (path.Join "data" (o.id.String ++ ".png"))).2 = Result.panic) :
    (App.CreateImage lib o s ResponseWriter.fresh r).2 = ResponseWriter.fresh := by
  rw [CreateImage_panic lib o s ResponseWriter.fresh r d hd hres]

theorem CreateImage_err_writer (lib : Lib) (o : Outcomes) (s : Server) (r : Request)
    (d : createImageReq) (hd : lib.jsonDecode r.Body = some d)
    (hres : (createImage lib o s s.app.Config.DefaultImageWidth
      s.app.Config.DefaultImageHeight s.app.Config.DefaultFontSize s.app.KoruriBold d.Words
      (path.Join "data" (o.id.String ++ ".png"))).2 = Result.err) :
    (App.CreateImage lib o s ResponseWriter.fresh r).2 = ResponseWriter.fresh := by
  rw [CreateImage_err lib o s ResponseWriter.fresh r d hd hres]

theorem CreateImage_ok_writer (lib : Lib) (o : Outcomes) (s : Server) (r : Request)
    (d : createImageReq) (hd : lib.jsonDecode r.Body = some d)
    (hres : (createImage lib o s s.app.Config.DefaultImageWidth
      s.app.Config.DefaultImageHeight s.app.Config.DefaultFontSize s.app.KoruriBold d.Words
      (path.Join "data" (o.id.String ++ ".png"))).2 = Result.ok) :
    (App.CreateImage lib o s ResponseWriter.fresh r).2
      = ⟨[("Content-Type", "application/json")], true, 200, [],
          lib.jsonEncode (App.CreateImage.data s.app d.Words (o.id.String ++ ".png")
            o.id.String)⟩ := by
  rw [CreateImage_ok lib o s ResponseWriter.fresh r d hd hres]
  simp only [json_response_writer, createImage_app]
  cases o.writeErr <;> rfl

theorem CreateImage_state (lib : Lib) (o : Outcomes) (s : Server) (r : Request)
    (d : createImageReq) (hd : lib.jsonDecode r.Body = some d) :
    (App.CreateImage lib o s ResponseWriter.fresh r).1.app = s.app ∧
    (App.CreateImage lib o s ResponseWriter.fresh r).1.files
      = (createImage lib o s s.app.Config.DefaultImageWidth
          s.app.Config.DefaultImageHeight s.app.Config.DefaultFontSize s.app.KoruriBold
          d.Words (path.Join "data" (o.id.String ++ ".png"))).1.files := by
  cases hres : (createImage lib o s s.app.Config.DefaultImageWidth
      s.app.Config.DefaultImageHeight s.app.Config.DefaultFontSize s.app.KoruriBold d.Words
      (path.Join "data" (o.id.String ++ ".png"))).2 with
  | ok =>
    rw [CreateImage_ok lib o s _ r d hd hres]
    simp only []
    cases o.writeErr <;> exact ⟨createImage_app _ _ _ _ _ _ _ _ _, rfl⟩
  | err =>
    rw [CreateImage_err lib o s _ r d hd hres]
    exact ⟨createImage_app _ _ _ _ _ _ _ _ _, rfl⟩
  | panic =>
    rw [CreateImage_panic lib o s _ r d hd hres]
    exact ⟨createImage_app _ _ _ _ _ _ _ _ _, rfl⟩

theorem CreateImage_app (lib : Lib) (o : Outcomes) (s : Server) (r : Request) :
    (App.CreateImage lib o s ResponseWriter.fresh r).1.app = s.app := by
  cases hd : lib.jsonDecode r.Body with
  | none => rw [CreateImage_decode_none lib o s _ r hd]
  | some d => exact (CreateImage_state lib o s r d hd).1

theorem FS_paths_write (fs : FS) (p c q : String) (h : q ∈ (fs.write p c).paths) :
    q = p ∨ q ∈ fs.paths := by
  simp only [FS.write, FS.paths, List.map_cons, List.mem_cons, List.mem_map,
    List.mem_filter] at h
  rcases h with h | ⟨e, ⟨he, _⟩, rfl⟩
  · exact Or.inl h
  · exact Or.inr (List.mem_map_of_mem _ he)

theorem createImage_paths (lib : Lib) (o : Outcomes) (s : Server) (width height : Int)
    (fontsize : ℚ) (ft : Font) (text out q : String)
    (h : q ∈ (createImage lib o s width height fontsize ft text out).1.files.paths) :
    q ∈ s.files.paths ∨
      ((createImage.raster o.allocErr width height fontsize ft text).isSome = true ∧
        o.createErr = false ∧ q = out) := by
  unfold createImage at h
  cases hr : createImage.raster o.allocErr width height fontsize ft text with
  | none =>
    simp only [hr] at h
    exact Or.inl h
  | some img =>
    simp only [hr] at h
    cases hc : o.createErr
    · cases he : o.encodeErr <;> simp only [hc, he, Bool.false_eq_true, if_false] at h
      · rcases FS_paths_write _ _ _ _ h with h | h
        · exact Or.inr ⟨rfl, rfl, h⟩
        · rcases FS_paths_write _ _ _ _ h with h | h
          · exact Or.inr ⟨rfl, rfl, h⟩
          · exact Or.inl h
      · rcases FS_paths_write _ _ _ _ h with h | h
        · exact Or.inr ⟨rfl, rfl, h⟩
        · rcases FS_paths_write _ _ _ _ h with h | h
          · exact Or.inr ⟨rfl, rfl, h⟩
          · exact Or.inl h
    · simp only [hc, if_true] at h
      exact Or.inl h

theorem CreateImage_paths (lib : Lib) (o : Outcomes) (s : Server) (r : Request) (q : String)
    (h : q ∈ (App.CreateImage lib o s ResponseWriter.fresh r).1.files.paths) :
    q ∈ s.files.paths ∨
      ∃ d, lib.jsonDecode r.Body = some d ∧
        (createImage.raster o.allocErr s.app.Config.DefaultImageWidth
          s.app.Config.DefaultImageHeight s.app.Config.DefaultFontSize s.app.KoruriBold
          d.Words).isSome = true ∧
        o.createErr = false ∧ q = "data/" ++ o.id.String ++ ".png" := by
  cases hd : lib.jsonDecode r.Body with
  | none =>
    rw [CreateImage_decode_none lib o s _ r hd] at h
    exact Or.inl h
  | some d =>
    rw [(CreateImage_state lib o s r d hd).2] at h
    rcases createImage_paths _ _ _ _ _ _ _ _ _ _ h with h1 | ⟨h0, h1, h2⟩
    · exact Or.inl h1
    · exact Or.inr ⟨d, rfl, h0, h1, by rw [h2, Join_data_uuid]⟩

theorem serveCreateImage_cons (lib : Lib) (s : Server) (r : Request) (o : Outcomes)
    (rest : List (Request × Outcomes)) :
    serveCreateImage lib s ((r, o) :: rest)
      = ((serveCreateImage lib (App.CreateImage lib o s ResponseWriter.fresh r).1 rest).1,
          (App.CreateImage lib o s ResponseWriter.fresh r).2 ::
            (serveCreateImage lib (App.CreateImage lib o s ResponseWriter.fresh r).1 rest).2) :=
  rfl

theorem serveCreateImage_files (lib : Lib) (reqs : List (Request × Outcomes)) :
    ∀ s : Server,
      (serveCreateImage lib s reqs).1.app = s.app ∧
      ∀ p ∈ (serveCreateImage lib s reqs).1.files.paths,
        p ∈ s.files.paths ∨
        ∃ ro ∈ reqs, (lib.jsonDecode ro.1.Body).isSome = true ∧ ro.2.createErr = false ∧
          p = "data/" ++ ro.2.id.String ++ ".png" ∧
          (ro.2.encodeErr = none → ro.2.writeErr = false →
            Returned lib s.app (serveCreateImage lib s reqs).2 ro.2.id.String) := by
  induction reqs with
  | nil =>
    intro s
    exact ⟨rfl, fun p hp => Or.inl hp⟩
  | cons ro rest ih =>
    intro s
    obtain ⟨r, o⟩ := ro
    rw [serveCreateImage_cons]
    obtain ⟨happ, hfiles⟩ := ih (App.CreateImage lib o s ResponseWriter.fresh r).1
    have happ1 := CreateImage_app lib o s r
    refine ⟨happ.trans happ1, ?_⟩
    intro p hp
    rcases hfiles p hp with h | ⟨ro, hmem, h1, h2, h3, h4⟩
    · rcases CreateImage_paths lib o s r p h with h | ⟨d, hd, h0, h2, h3⟩
      · exact Or.inl h
      · refine Or.inr ⟨(r, o), List.mem_cons_self _ _, by simp [hd], h2, h3, ?_⟩
        intro he _
        have hnew : (NewRGBA o.allocErr (Rect 0 0 s.app.Config.DefaultImageWidth
            s.app.Config.DefaultImageHeight)).isNone = false := by
          rw [← createImage_raster_isNone o.allocErr _ _ s.app.Config.DefaultFontSize
            s.app.KoruriBold d.Words]
          cases hr : createImage.raster o.allocErr s.app.Config.DefaultImageWidth
              s.app.Config.DefaultImageHeight s.app.Config.DefaultFontSize s.app.KoruriBold
              d.Words with
          | none => rw [hr] at h0; simp at h0
          | some img => rfl
        have hres : (createImage lib o s s.app.Config.DefaultImageWidth
            s.app.Config.DefaultImageHeight s.app.Config.DefaultFontSize s.app.KoruriBold
            d.Words (path.Join "data" (o.id.String ++ ".png"))).2 = Result.ok := by
          rw [createImage_result, hnew, h2, he]
          rfl
        refine ⟨_, List.mem_cons_self _ _, ?_, d.Words, ?_⟩
        · rw [CreateImage_ok_writer lib o s r d hd hres]
        · rw [CreateImage_ok_writer lib o s r d hd hres]
    · refine Or.inr ⟨ro, List.mem_cons_of_mem _ hmem, h1, h2, h3, ?_⟩
      intro he hwe
      obtain ⟨w, hw, hw1, hw2⟩ := h4 he hwe
      rw [happ1] at hw2
      exact ⟨w, List.mem_cons_of_mem _ hw, hw1, hw2⟩

/-- C3: when the request body decodes to `d`, the raster is built and creating and
encoding the file succeed, `CreateImage` writes the PNG of the rendered words to
`data/<u>.png` (`u` the minted identifier in string form), and responds with status 200
and the JSON encoding of the object with exactly the keys `words = d.Words`,
`file = u.png`, `id = u` and `baseURL = Config.BaseURL`; the saved path is `data/`
followed by the `file` field. -/
theorem CreateImage_success (lib : Lib) (o : Outcomes) (s : Server) (r : Request)
    (d : createImageReq) (img : RGBA) (hd : lib.jsonDecode r.Body = some d)
    (hr : createImage.raster o.allocErr s.app.Config.DefaultImageWidth
      s.app.Config.DefaultImageHeight s.app.Config.DefaultFontSize s.app.KoruriBold
      d.Words = some img)
    (hc : o.createErr = false) (he : o.encodeErr = none) :
    path.Join "data" (o.id.String ++ ".png") = "data/" ++ o.id.String ++ ".png" ∧
    (App.CreateImage lib o s ResponseWriter.fresh r).1.files
      = s.files.write ("data/" ++ o.id.String ++ ".png") (lib.pngEncode img) ∧
    (App.CreateImage lib o s ResponseWriter.fresh r).2.wroteHeader = true ∧
    (App.CreateImage lib o s ResponseWriter.fresh r).2.status = 200 ∧
    (App.CreateImage lib o s ResponseWriter.fresh r).2.finish.1 = 200 ∧
    (App.CreateImage lib o s ResponseWriter.fresh r).2.body
      = lib.jsonEncode [("words", d.Words), ("file", o.id.String ++ ".png"),
          ("id", o.id.String), ("baseURL", s.app.Config.BaseURL)] ∧
    "data/" ++ o.id.String ++ ".png"
      = "data/" ++ Map.get [("words", d.Words), ("file", o.id.String ++ ".png"),
          ("id", o.id.String), ("baseURL", s.app.Config.BaseURL)] "file" := by
  have hfile := createImage_file lib o s _ _ _ _ _
    (path.Join "data" (o.id.String ++ ".png")) img hr hc he
  have hres : (createImage lib o s s.app.Config.DefaultImageWidth
      s.app.Config.DefaultImageHeight s.app.Config.DefaultFontSize s.app.KoruriBold d.Words
      (path.Join "data" (o.id.String ++ ".png"))).2 = Result.ok := by
    rw [hfile]
  have hw := CreateImage_ok_writer lib o s r d hd hres
  have hs := (CreateImage_state lib o s r d hd).2
  rw [hfile, Join_data_uuid] at hs
  refine ⟨Join_data_uuid o.id, hs, ?_, ?_, ?_, ?_, ?_⟩
  · rw [hw]
  · rw [hw]
  · rw [hw]; rfl
  · rw [hw]; rfl
  · rw [String.append_assoc]
    simp [Map.get, List.lookup]

/-- C4: for every request, with `id` its route variable, `OgpPage` leaves the state alone
and responds with status 200 and the output of the OGP template executed on exactly
`id = id`, `file = id.png`, `baseURL = Config.BaseURL`; the response does not depend on
the files that exist (no lookup, no rejection), and a route that binds `id` to any string
hands that string over unchanged. -/
theorem OgpPage_response (s : Server) (r : Request) :
    App.OgpPage s ResponseWriter.fresh r
      = (s, ⟨[], true, 200, [],
          (s.app.OgpPageTmpl.Execute
            [("id", r.Vars.get "id"), ("file", r.Vars.get "id" ++ ".png"),
              ("baseURL", s.app.Config.BaseURL)]).1⟩) ∧
    (App.OgpPage s ResponseWriter.fresh r).2.finish.1 = 200 ∧
    (∀ (files : FS) (log : List LogEntry),
      (App.OgpPage { s with files := files, log := log } ResponseWriter.fresh r).2
        = (App.OgpPage s ResponseWriter.fresh r).2 ∧
      (App.OgpPage { s with files := files, log := log } ResponseWriter.fresh r).1.files
        = files) ∧
    (∀ (id body : String), (Request.mk body [("id", id)]).Vars.get "id" = id) := by
  have h : App.OgpPage s ResponseWriter.fresh r
      = (s, ⟨[], true, 200, [],
          (s.app.OgpPageTmpl.Execute
            [("id", r.Vars.get "id"), ("file", r.Vars.get "id" ++ ".png"),
              ("baseURL", s.app.Config.BaseURL)]).1⟩) := by
    simp [App.OgpPage, App.OgpPage.data, ResponseWriter.Write, ResponseWriter.WriteHeader,
      ResponseWriter.fresh]
  refine ⟨h, ?_, ?_, ?_⟩
  · rw [h]; rfl
  · intro files log
    constructor
    · simp [App.OgpPage, App.OgpPage.data]
    · simp [App.OgpPage]
  · intro id body
    simp [Map.get, List.lookup]

/-- C8: for every state and every two requests, `IndexPage` responds with status 200 and
exactly the index page content held by the application value, leaves the state (the
application value included) unchanged, and so answers both requests, one after the other,
with the same response. -/
theorem IndexPage_deterministic (s : Server) (r1 r2 : Request) :
    App.IndexPage s ResponseWriter.fresh r1
      = (s, ⟨[], true, 200, [], s.app.IndexPageTmpl⟩) ∧
    (App.IndexPage s ResponseWriter.fresh r1).2.finish = (200, [], s.app.IndexPageTmpl) ∧
    (App.IndexPage s ResponseWriter.fresh r1).1.app = s.app ∧
    App.IndexPage s ResponseWriter.fresh r1 = App.IndexPage s ResponseWriter.fresh r2 ∧
    (App.IndexPage (App.IndexPage s ResponseWriter.fresh r1).1 ResponseWriter.fresh r2).2
      = (App.IndexPage s ResponseWriter.fresh r1).2 := by
  have h : ∀ r, App.IndexPage s ResponseWriter.fresh r
      = (s, ⟨[], true, 200, [], s.app.IndexPageTmpl⟩) := by
    intro r
    simp [App.IndexPage, ResponseWriter.Write, ResponseWriter.WriteHeader,
      ResponseWriter.fresh]
  refine ⟨h r1, ?_, ?_, ?_, ?_⟩
  · rw [h r1]; rfl
  · rw [h r1]
  · rw [h r1, h r2]
  · rw [h r1, h r2]

/-- C5: on a fresh writer `CreateImage` commits a status exactly when the body decodes
and `createImage` returns no error, and then the status is 200 and the body handed to
the writer is the JSON object; when the decode fails the writer is untouched (the client
gets the default 200 and an empty body), no file is created and `createImage` is not
invoked (nothing but the decode failure is logged); when `createImage` returns an error
the writer is untouched as well, and so it is when `createImage` panics. -/
theorem CreateImage_failure_silent (lib : Lib) (o : Outcomes) (s : Server) (r : Request) :
    (lib.jsonDecode r.Body = none →
      (App.CreateImage lib o s ResponseWriter.fresh r).2 = ResponseWriter.fresh ∧
      (App.CreateImage lib o s ResponseWriter.fresh r).2.finish = (200, [], "") ∧
      (App.CreateImage lib o s ResponseWriter.fresh r).1.files = s.files ∧
      (App.CreateImage lib o s ResponseWriter.fresh r).1.log
        = s.log ++ [LogEntry.decodeFailed]) ∧
    (∀ d, lib.jsonDecode r.Body = some d →
      (createImage lib o s s.app.Config.DefaultImageWidth s.app.Config.DefaultImageHeight
        s.app.Config.DefaultFontSize s.app.KoruriBold d.Words
        (path.Join "data" (o.id.String ++ ".png"))).2 = Result.err →
      (App.CreateImage lib o s ResponseWriter.fresh r).2 = ResponseWriter.fresh ∧
      (App.CreateImage lib o s ResponseWriter.fresh r).2.finish = (200, [], "")) ∧
    (∀ d, lib.jsonDecode r.Body = some d →
      (createImage lib o s s.app.Config.DefaultImageWidth s.app.Config.DefaultImageHeight
        s.app.Config.DefaultFontSize s.app.KoruriBold d.Words
        (path.Join "data" (o.id.String ++ ".png"))).2 = Result.ok →
      (App.CreateImage lib o s ResponseWriter.fresh r).2.wroteHeader = true ∧
      (App.CreateImage lib o s ResponseWriter.fresh r).2.status = 200 ∧
      (App.CreateImage lib o s ResponseWriter.fresh r).2.body
        = lib.jsonEncode (App.CreateImage.data s.app d.Words (o.id.String ++ ".png")
            o.id.String)) ∧
    ((App.CreateImage lib o s ResponseWriter.fresh r).2.wroteHeader = true ↔
      ∃ d, lib.jsonDecode r.Body = some d ∧
        (createImage lib o s s.app.Config.DefaultImageWidth s.app.Config.DefaultImageHeight
          s.app.Config.DefaultFontSize s.app.KoruriBold d.Words
          (path.Join "data" (o.id.String ++ ".png"))).2 = Result.ok) ∧
    (∀ d, lib.jsonDecode r.Body = some d →
      (createImage lib o s s.app.Config.DefaultImageWidth s.app.Config.DefaultImageHeight
        s.app.Config.DefaultFontSize s.app.KoruriBold d.Words
        (path.Join "data" (o.id.String ++ ".png"))).2 = Result.panic →
      (App.CreateImage lib o s ResponseWriter.fresh r).2 = ResponseWriter.fresh) := by
  have hnone : lib.jsonDecode r.Body = none →
      App.CreateImage lib o s ResponseWriter.fresh r
        = ({ s with log := s.log ++ [LogEntry.decodeFailed] }, ResponseWriter.fresh) :=
    CreateImage_decode_none lib o s ResponseWriter.fresh r
  have hfail := CreateImage_err_writer lib o s r
  have hpanic := CreateImage_panic_writer lib o s r
  have hok := CreateImage_ok_writer lib o s r
  refine ⟨?_, ?_, ?_, ?_, hpanic⟩
  · intro hd
    rw [hnone hd]
    exact ⟨rfl, rfl, rfl, rfl⟩
  · intro d hd herr
    rw [hfail d hd herr]
    exact ⟨rfl, rfl⟩
  · intro d hd herr
    rw [hok d hd herr]
    exact ⟨rfl, rfl, rfl⟩
  · constructor
    · intro hw
      cases hd : lib.jsonDecode r.Body with
      | none =>
        rw [hnone hd] at hw
        simp [ResponseWriter.fresh] at hw
      | some d =>
        refine ⟨d, rfl, ?_⟩
        cases herr : (createImage lib o s s.app.Config.DefaultImageWidth
          s.app.Config.DefaultImageHeight s.app.Config.DefaultFontSize s.app.KoruriBold
          d.Words (path.Join "data" (o.id.String ++ ".png"))).2 with
        | ok => rfl
        | err =>
          rw [hfail d hd herr] at hw
          simp [ResponseWriter.fresh] at hw
        | panic =>
          rw [hpanic d hd herr] at hw
          simp [ResponseWriter.fresh] at hw
    · rintro ⟨d, hd, herr⟩
      rw [hok d hd herr]

/-- C10, evaluated on the code: whatever the request, no header is committed with the
status, so `Content-Type: application/json` is never sent; on the successful path the
status 200 is committed first and the header is only set afterwards in the header map. -/
theorem CreateImage_content_type_not_committed (lib : Lib) (o : Outcomes) (s : Server)
    (r : Request) :
    (App.CreateImage lib o s ResponseWriter.fresh r).2.sent = [] ∧
    (App.CreateImage lib o s ResponseWriter.fresh r).2.finish.2.1 = [] ∧
    ((App.CreateImage lib o s ResponseWriter.fresh r).2.wroteHeader = true →
      (App.CreateImage lib o s ResponseWriter.fresh r).2.status = 200 ∧
      (App.CreateImage lib o s ResponseWriter.fresh r).2.header
        = [("Content-Type", "application/json")]) ∧
    (App.CreateImage demoLib okOutcomes demoServer ResponseWriter.fresh helloRequest).2
      = ⟨[("Content-Type", "application/json")], true, 200, [],
          "words=hello,file=00000000-0000-0000-0000-000000000000.png," ++
          "id=00000000-0000-0000-0000-000000000000,baseURL=https://ogp.app"⟩ := by
  have key : (App.CreateImage lib o s ResponseWriter.fresh r).2 = ResponseWriter.fresh ∨
      ∃ b, (App.CreateImage lib o s ResponseWriter.fresh r).2
        = ⟨[("Content-Type", "application/json")], true, 200, [], b⟩ := by
    cases hd : lib.jsonDecode r.Body with
    | none =>
      rw [CreateImage_decode_none lib o s _ r hd]
      exact Or.inl rfl
    | some d =>
      cases herr : (createImage lib o s s.app.Config.DefaultImageWidth
        s.app.Config.DefaultImageHeight s.app.Config.DefaultFontSize s.app.KoruriBold
        d.Words (path.Join "data" (o.id.String ++ ".png"))).2 with
      | err => exact Or.inl (CreateImage_err_writer lib o s r d hd herr)
      | panic => exact Or.inl (CreateImage_panic_writer lib o s r d hd herr)
      | ok => exact Or.inr ⟨_, CreateImage_ok_writer lib o s r d hd herr⟩
  refine ⟨?_, ?_, ?_, ?_⟩
  · rcases key with h | ⟨b, h⟩
    · rw [h]; rfl
    · rw [h]
  · rcases key with h | ⟨b, h⟩
    · rw [h]; rfl
    · rw [h]; rfl
  · intro hw
    rcases key with h | ⟨b, h⟩
    · rw [h] at hw
      simp [ResponseWriter.fresh] at hw
    · rw [h]
      exact ⟨rfl, rfl⟩
  · rw [CreateImage_ok_writer demoLib okOutcomes demoServer helloRequest ⟨"hello"⟩ rfl
      (by rw [createImage_result]; decide)]
    decide

/-- C7 fails as stated: one request whose file is created but whose PNG encoding fails
leaves `data/00000000-0000-0000-0000-000000000000.png` on disk, while the only response
of the run is untouched, so no identifier was returned to any client. -/
theorem StorageInvariant_fails :
    ¬ StorageInvariant demoLib demoServer [(helloRequest, encodeFailsOutcomes)] := by
  intro h
  have hrun : (serveCreateImage demoLib demoServer [(helloRequest, encodeFailsOutcomes)]).2
      = [ResponseWriter.fresh] := by
    rw [serveCreateImage_cons]
    rw [CreateImage_err_writer demoLib encodeFailsOutcomes demoServer helloRequest ⟨"hello"⟩ rfl
      (by rw [createImage_result]; decide)]
    rfl
  have hfile : "data/00000000-0000-0000-0000-000000000000.png"
      ∈ (serveCreateImage demoLib demoServer [(helloRequest, encodeFailsOutcomes)]).1.files.paths := by
    decide
  obtain ⟨u, _, w, hw, hw1, _⟩ := h _ hfile
  rw [hrun] at hw
  simp only [List.mem_singleton] at hw
  rw [hw] at hw1
  simp [ResponseWriter.fresh] at hw1

/-- C7 (amended): after every run of `CreateImage` requests from a state without files,
every file that exists is `data/<u>.png` for an identifier `u` minted by a request of the
run whose body decoded and whose `os.Create` succeeded; `u` was returned to a client in
that request's response when its PNG encoding and the write of its JSON response
succeeded as well. -/
theorem files_are_minted (lib : Lib) (s : Server) (reqs : List (Request × Outcomes))
    (h0 : s.files = []) :
    ∀ p ∈ (serveCreateImage lib s reqs).1.files.paths,
      ∃ ro ∈ reqs, (lib.jsonDecode ro.1.Body).isSome = true ∧ ro.2.createErr = false ∧
        p = "data/" ++ ro.2.id.String ++ ".png" ∧
        (ro.2.encodeErr = none → ro.2.writeErr = false →
          Returned lib s.app (serveCreateImage lib s reqs).2 ro.2.id.String) := by
  intro p hp
  rcases (serveCreateImage_files lib reqs s).2 p hp with h | h
  · rw [h0] at h
    simp [FS.paths] at h
  · exact h

/-! ## The theorems at concrete inputs -/

/-- C1 (amended) at a 4 x 2 canvas, font size 2, the box font and the text `hi`. -/
theorem createImage_raster_bounds_witness :
    (0 : Int) < 4 ∧ (0 : Int) < 2 ∧ (0 : ℚ) < 2 ∧ (4 : Int) * 4 * 2 ≤ 9223372036854775807 ∧
    ∃ img, createImage.raster false 4 2 2 boxFont "hi" = some img ∧
      img.Bounds = ⟨⟨0, 0⟩, ⟨4, 2⟩⟩ ∧ img.Pix.length = 32 := by
  obtain ⟨img, h1, h2, _, _, _, h6, _⟩ :=
    createImage_raster_bounds 4 2 2 boxFont "hi" (by decide) (by decide) (by norm_num)
      (by decide)
  exact ⟨by decide, by decide, by norm_num, by decide, img, h1, h2, h6⟩

/-- C2 (amended) at a 4 x 2 canvas, font size 2 and the box font. -/
theorem createImage_raster_empty_witness :
    (0 : Int) < 4 ∧ (0 : Int) < 2 ∧ (0 : ℚ) < 2 ∧
    (4 : Int) ≤ 1000000000 ∧ (2 : Int) ≤ 1000000000 ∧
    ∃ img, createImage.raster false 4 2 2 boxFont "" = some img ∧
      img.Pix = List.replicate 32 255 ∧ img.RGBAAt 3 1 = White := by
  obtain ⟨_, _, img, _, h2, _, h4, h5⟩ :=
    createImage_raster_empty 4 2 2 boxFont (by decide) (by decide) (by norm_num)
      (by decide) (by decide)
  exact ⟨by decide, by decide, by norm_num, by decide, by decide, img, h2, h4,
    h5 3 1 (by decide) (by decide) (by decide) (by decide)⟩

/-- C3 at the request `hello`, the all-zero identifier and no failure. -/
theorem CreateImage_success_witness :
    demoLib.jsonDecode helloRequest.Body = some ⟨"hello"⟩ ∧
    okOutcomes.createErr = false ∧ okOutcomes.encodeErr = none ∧
    ∃ img, createImage.raster okOutcomes.allocErr demoServer.app.Config.DefaultImageWidth
        demoServer.app.Config.DefaultImageHeight demoServer.app.Config.DefaultFontSize
        demoServer.app.KoruriBold "hello" = some img ∧
      (App.CreateImage demoLib okOutcomes demoServer ResponseWriter.fresh helloRequest).1.files
        = [("data/00000000-0000-0000-0000-000000000000.png", demoLib.pngEncode img)] ∧
      (App.CreateImage demoLib okOutcomes demoServer ResponseWriter.fresh helloRequest).2.status
        = 200 ∧
      (App.CreateImage demoLib okOutcomes demoServer ResponseWriter.fresh helloRequest).2.body
        = demoLib.jsonEncode [("words", "hello"),
            ("file", okOutcomes.id.String ++ ".png"), ("id", okOutcomes.id.String),
            ("baseURL", demoServer.app.Config.BaseURL)] := by
  have hr := createImage_raster_of_pos 4 2 2 boxFont "hello" (by decide) (by decide) (by decide)
  have h := CreateImage_success demoLib okOutcomes demoServer helloRequest ⟨"hello"⟩ _
    rfl hr rfl rfl
  exact ⟨rfl, rfl, rfl, _, hr, h.2.1, h.2.2.2.1, h.2.2.2.2.2.1⟩

/-- C5 at a body that does not decode, and at a request whose PNG encoding fails. -/
theorem CreateImage_failure_silent_witness :
    demoLib.jsonDecode badRequest.Body = none ∧
    (App.CreateImage demoLib okOutcomes demoServer ResponseWriter.fresh badRequest).2
      = ResponseWriter.fresh ∧
    (App.CreateImage demoLib okOutcomes demoServer ResponseWriter.fresh badRequest).1.files
      = [] ∧
    (App.CreateImage demoLib encodeFailsOutcomes demoServer ResponseWriter.fresh
      helloRequest).2 = ResponseWriter.fresh :=
  ⟨rfl,
    ((CreateImage_failure_silent demoLib okOutcomes demoServer badRequest).1 rfl).1,
    ((CreateImage_failure_silent demoLib okOutcomes demoServer badRequest).1 rfl).2.2.1,
    ((CreateImage_failure_silent demoLib encodeFailsOutcomes demoServer helloRequest).2.1
      ⟨"hello"⟩ rfl (by rw [createImage_result]; decide)).1⟩

/-- C6 (amended) at a 600 pixel canvas and five glyphs of advance 100. -/
theorem createImage_x_centered_witness :
    (0 : Int) < 600 ∧ (600 : Int) < 33554432 ∧
    0 ≤ MeasureString ((blankFont 100).NewFace 48) "hello" ∧
    MeasureString ((blankFont 100).NewFace 48) "hello" < fixed.I 600 ∧
    0 ≤ createImage.x 600 ((blankFont 100).NewFace 48) "hello" ∧
    createImage.x 600 ((blankFont 100).NewFace 48) "hello"
      + MeasureString ((blankFont 100).NewFace 48) "hello" ≤ fixed.I 600 :=
  ⟨by decide, by decide, by decide, by decide,
    ((createImage_x_centered 600 315 48 (blankFont 100) "hello" (by decide) (by decide)
      (by decide)).2.1 (by decide)).1,
    ((createImage_x_centered 600 315 48 (blankFont 100) "hello" (by decide) (by decide)
      (by decide)).2.1 (by decide)).2.1⟩

/-- C7 (amended) at a run of two requests, the second one failing to encode, and the
file the run leaves behind. -/
theorem files_are_minted_witness :
    demoServer.files = [] ∧
    "data/00000000-0000-0000-0000-000000000000.png"
      ∈ (serveCreateImage demoLib demoServer
        [(helloRequest, okOutcomes), (helloRequest, encodeFailsOutcomes)]).1.files.paths ∧
    ∃ ro ∈ [(helloRequest, okOutcomes), (helloRequest, encodeFailsOutcomes)],
      (demoLib.jsonDecode ro.1.Body).isSome = true ∧ ro.2.createErr = false ∧
      "data/00000000-0000-0000-0000-000000000000.png" = "data/" ++ ro.2.id.String ++ ".png" ∧
      (ro.2.encodeErr = none → ro.2.writeErr = false →
        Returned demoLib demoServer.app (serveCreateImage demoLib demoServer
          [(helloRequest, okOutcomes), (helloRequest, encodeFailsOutcomes)]).2
          ro.2.id.String) :=
  ⟨rfl, by decide, files_are_minted demoLib demoServer
    [(helloRequest, okOutcomes), (helloRequest, encodeFailsOutcomes)] rfl
    "data/00000000-0000-0000-0000-000000000000.png" (by decide)⟩

/-- C9 (amended) at height 315 and font size 48: both sides are 169. -/
theorem createImage_y_eq_specBaseline_witness :
    (0 : Int) < 315 ∧ (0 : ℚ) < 48 ∧ (48 : ℚ) < 9223372036854775808 ∧
    315 + truncate 48 / 2 ≤ 9223372036854775807 ∧
    createImage.y 315 48 = specBaseline 315 48 ∧ createImage.y 315 48 = 169 := by
  have t : truncate (48 : ℚ) = 48 := by
    have := truncate_intCast 48
    simpa using this
  have hsum : 315 + truncate (48 : ℚ) / 2 ≤ 9223372036854775807 := by
    rw [t]
    decide
  have hy : createImage.y 315 48 = 169 := by
    simp only [createImage.y, truncInt, t]
    decide
  exact ⟨by decide, by norm_num, by norm_num, hsum,
    createImage_y_eq_specBaseline 315 48 (by decide) (by norm_num) (by norm_num) hsum, hy⟩

end OgpApp
